import Mathlib

/-!
Verification development for the auth core of this repository: the session
refresh scheduler (src/services/auth/session/refresh.ts), the admin
permission resolver (src/services/auth/admin/permissions.ts), and the
account provisioning workflow (src/services/auth/approval.ts and
src/services/auth/validation.ts).  TypeScript async functions are embedded
as pure Lean functions over an explicit environment describing the outcomes
of external calls, with an explicit document-store state and an event trace.
-/

/-- Errors thrown by the embedded code.  `firebase code msg` stands for a
FirebaseError with its error code, `jsError msg` for a plain `Error`, and
`referenceError name` for the ReferenceError raised when an undefined
identifier is evaluated. -/
inductive JsError where
  | firebase (code : String) (message : String)
  | jsError (message : String)
  | referenceError (name : String)
  deriving DecidableEq, Repr

namespace JsError

/-- The `error.message` a caller observes (a ReferenceError's message is
the standard JavaScript one). -/
def message : JsError → String
  | .firebase _ m => m
  | .jsError m => m
  | .referenceError n => n ++ " is not defined"

/-- Mirrors the source's `error instanceof FirebaseError` tests. -/
def isFirebase : JsError → Bool
  | .firebase _ _ => true
  | _ => false

/-- Mirrors `error.code === c` on a FirebaseError. -/
def hasCode (e : JsError) (c : String) : Bool :=
  match e with
  | .firebase code _ => code == c
  | _ => false

end JsError

/- ------------------------------------------------------------------
Session refresh scheduler, from src/src/services/auth/session/refresh.ts.
------------------------------------------------------------------ -/

namespace Refresh

/-- refresh.ts line 8: `const SESSION_TIMEOUT = 55 * 60 * 1000`. -/
def SESSION_TIMEOUT : Int := 55 * 60 * 1000

/-- refresh.ts line 9: `const REFRESH_THRESHOLD = 5 * 60 * 1000`. -/
def REFRESH_THRESHOLD : Int := 5 * 60 * 1000

/-- refresh.ts lines 71-72: `tokenAge = now - issuedAt.getTime()` and
`timeUntilRefresh = Math.max(0, SESSION_TIMEOUT - REFRESH_THRESHOLD - tokenAge)`. -/
def timeUntilRefresh (now issuedAtMs : Int) : Int :=
  max 0 (SESSION_TIMEOUT - REFRESH_THRESHOLD - (now - issuedAtMs))

/-- refresh.ts line 85: the delay actually passed to `setTimeout` is
`Math.max(0, timeUntilRefresh)`. -/
def armedDelay (now issuedAtMs : Int) : Int :=
  max 0 (timeUntilRefresh now issuedAtMs)

/-- The spec's formula, written from its own words: SESSION_TIMEOUT = 55
minutes, REFRESH_THRESHOLD = 5 minutes, tokenAge = now - credentialIssuedAt,
timeUntilRefresh = max(0, SESSION_TIMEOUT - REFRESH_THRESHOLD - tokenAge),
all in milliseconds. -/
def specTimeUntilRefresh (now issuedAtMs : Int) : Int :=
  max 0 (55 * 60 * 1000 - 5 * 60 * 1000 - (now - issuedAtMs))

/-- The identifier `REFRESH_RETRY_DELAY` is referenced at refresh.ts lines
82 and 88 but is neither declared in the module nor imported from anywhere
in the repository; evaluating it at runtime throws a ReferenceError.  The
absence of a binding is embedded as `none`. -/
def REFRESH_RETRY_DELAY? : Option Int := none

/-- Outcome of one failing refresh cycle (the `catch` branch at refresh.ts
lines 80-84): whether the caller's `onError` was invoked, and whether the
cycle re-armed a retry timer or died with an uncaught exception. -/
inductive FailOutcome where
  | rearmed (delayMs : Int) (onErrorCalled : Bool)
  | uncaught (e : JsError)
  deriving DecidableEq, Repr

/-- The failure branch at refresh.ts lines 80-84: the code first evaluates
`setTimeout(scheduleNextCheck, REFRESH_RETRY_DELAY)` and only then calls
`onError`.  Evaluating the argument `REFRESH_RETRY_DELAY` requires the
binding to exist; when it does not, the branch throws before either the
re-arm or the `onError` call happens. -/
def failureBranch : FailOutcome :=
  match REFRESH_RETRY_DELAY? with
  | none => .uncaught (.referenceError "REFRESH_RETRY_DELAY")
  | some d => .rearmed d true

end Refresh

/- ------------------------------------------------------------------
Timer lifecycle of setupSessionRefresh (refresh.ts lines 54-101): the
`timeoutId` variable, the armed timers, the async scheduleNextCheck
continuations and the disposer, as a small interleaving machine.  Only the
success path of a refresh is modelled here (the failure path is settled
separately through `Refresh.failureBranch`).
------------------------------------------------------------------ -/

namespace Sched

/-- State of one `setupSessionRefresh` invocation.  `pendingArms` counts
`scheduleNextCheck` calls that have started (the function is async: the
timer is armed only when its continuation runs); `armed` holds the ids of
live timers; `timeoutId` is the module variable the disposer reads;
`firedAfterDispose` counts refresh cycles that fired after the disposer
ran. -/
structure State where
  pendingArms : Nat
  armed : List Nat
  timeoutId : Option Nat
  nextId : Nat
  disposed : Bool
  firedAfterDispose : Nat
  deriving DecidableEq, Repr

/-- The initial state: `setupSessionRefresh` has called
`scheduleNextCheck()` once (refresh.ts line 93) and returned; no timer is
armed yet and `timeoutId` is still unset. -/
def init : State :=
  { pendingArms := 1, armed := [], timeoutId := none, nextId := 0,
    disposed := false, firedAfterDispose := 0 }

/-- Interleaving actions: `runArm` resumes one pending scheduleNextCheck
continuation, which arms a fresh timer and assigns `timeoutId` (refresh.ts
line 75); `fire i` fires timer `i`, which runs the refresh and calls
`scheduleNextCheck` again (line 79); `dispose` runs the returned cleanup
function (lines 96-100), clearing the timer named by `timeoutId` if set. -/
inductive Action where
  | runArm
  | fire (i : Nat)
  | dispose
  deriving DecidableEq, Repr

/-- One step of the machine. -/
def step (s : State) : Action → State
  | .runArm =>
    if s.pendingArms = 0 then s
    else { s with pendingArms := s.pendingArms - 1,
                  armed := s.nextId :: s.armed,
                  timeoutId := some s.nextId,
                  nextId := s.nextId + 1 }
  | .fire i =>
    if s.armed.contains i then
      { s with armed := s.armed.erase i,
               pendingArms := s.pendingArms + 1,
               firedAfterDispose :=
                 s.firedAfterDispose + (if s.disposed then 1 else 0) }
    else s
  | .dispose =>
    let armed := match s.timeoutId with
      | some i => s.armed.erase i
      | none => s.armed
    { s with disposed := true, armed := armed }

/-- Run a list of actions from a state. -/
def run (s : State) : List Action → State
  | [] => s
  | a :: rest => run (step s a) rest

/-- A state with no pending continuation and no armed timer can never fire
again. -/
def inert (s : State) : Prop := s.pendingArms = 0 ∧ s.armed = []

end Sched

/- ------------------------------------------------------------------
Shared data model for the provisioning workflow.
------------------------------------------------------------------ -/

/-- Status of an AuthRequest document. -/
inductive ReqStatus where
  | pending
  | approved
  | rejected
  deriving DecidableEq, Repr

/-- Timestamp values written into documents: `server` stands for
`serverTimestamp()`, `clientIso t` for `new Date().toISOString()` at
client time `t`, and `nullTs` for an explicit `null`. -/
inductive TsVal where
  | server
  | clientIso (t : Nat)
  | nullTs
  deriving DecidableEq, Repr

/-- An authRequests document as the workflow reads and writes it. -/
structure AuthRequestDoc where
  email : String
  password : String
  status : ReqStatus
  reviewedBy : Option String := none
  reviewedAt : Option TsVal := none
  deriving DecidableEq, Repr

/-- A profile document (collections `users` and `salespeople`), with the
fields the workflow writes. -/
structure ProfileDoc where
  email : String
  name : String
  role : String
  adminFlag : Option Bool := none
  approved : Bool
  staffCode : Option String := none
  storeIds : List String := []
  primaryStoreId : String := ""
  createdAt : TsVal
  lastLoginAt : Option TsVal := none
  updatedAt : Option TsVal := none
  deriving DecidableEq, Repr

/-- The document store: three collections keyed by document id. -/
structure Firestore where
  authRequests : List (String × AuthRequestDoc) := []
  users : List (String × ProfileDoc) := []
  salespeople : List (String × ProfileDoc) := []
  deriving DecidableEq, Repr

namespace Firestore

/-- Point read by id (Firestore `getDoc`). -/
def getRequest (s : Firestore) (id : String) : Option AuthRequestDoc :=
  (s.authRequests.find? (fun p => p.1 == id)).map Prod.snd

/-- Query `collection('users') where email ==` (Firestore `getDocs`). -/
def usersByEmail (s : Firestore) (email : String) : List (String × ProfileDoc) :=
  s.users.filter (fun p => p.2.email == email)

/-- Query `collection('salespeople') where email ==`. -/
def salesByEmail (s : Firestore) (email : String) : List (String × ProfileDoc) :=
  s.salespeople.filter (fun p => p.2.email == email)

end Firestore

/-- The identity provider's account table: email to uid. -/
structure AuthState where
  accounts : List (String × String) := []
  deriving DecidableEq, Repr

namespace AuthState

/-- Uid of the account registered for an email, if any. -/
def uidOf (a : AuthState) (email : String) : Option String :=
  (a.accounts.find? (fun p => p.1 == email)).map Prod.snd

/-- `fetchSignInMethodsForEmail` returns a non-empty list exactly when the
email has an account. -/
def signInMethods (a : AuthState) (email : String) : List String :=
  match a.uidOf email with
  | some _ => ["password"]
  | none => []

end AuthState

/-- Strip leading and trailing whitespace from a character list
(structurally recursive model of JavaScript's `String.prototype.trim`). -/
def trimChars (l : List Char) : List Char :=
  ((l.dropWhile Char.isWhitespace).reverse.dropWhile Char.isWhitespace).reverse

/-- JavaScript's `.trim()`. -/
def jsTrim (s : String) : String := ⟨trimChars s.data⟩

/-- JavaScript's `.toLowerCase()` (ASCII case mapping). -/
def jsToLower (s : String) : String := ⟨s.data.map Char.toLower⟩

/-- Normalization applied at every boundary in the source:
`email.toLowerCase().trim()`. -/
def normalizeEmail (e : String) : String := jsTrim (jsToLower e)

/- ------------------------------------------------------------------
Admin permission resolver, from src/src/services/auth/admin/permissions.ts
(verifyAdminPermissions, lines 50-137).
------------------------------------------------------------------ -/

namespace Perm

/-- Environment of one `verifyAdminPermissions` call: `currentUser` is
`auth.currentUser` as (uid, email); `refreshErr` is the outcome of the
initial `retry(() => currentUser.getIdToken(true))` (lines 62-69), `some e`
when the retry exhausted its attempts and threw `e`; `isOnline` is the
network monitor's flag; `networkReturns` is the value `waitForNetwork`
resolves to when the monitor was offline; `verifyAdminRes` is the outcome
of the `verifyAdmin` callable (lines 90-93); `userDocRead` is the outcome
of the Firestore fallback read (lines 108-110), carrying the profile
document when it exists; `defaultAdminEmail` is
`AUTH_SETTINGS.DEFAULT_ADMIN.EMAIL`. -/
structure Env where
  currentUser : Option (String × String)
  refreshErr : Option JsError := none
  isOnline : Bool := true
  networkReturns : Bool := true
  verifyAdminRes : Except JsError Bool := .ok false
  userDocRead : Except JsError (Option ProfileDoc) := .ok none
  defaultAdminEmail : String

/-- permissions.ts lines 50-137.  Every throw inside the body lands in the
outer catch at line 134, which logs and returns `false`; the function
itself therefore returns a plain `Bool` and never throws.  Branches follow
the source order: missing user, forced token refresh, offline wait,
default-admin fast path, callable claim verification (its errors logged
and swallowed at lines 99-104), then the Firestore fallback whose
permission-denied errors return `false` directly (line 128-131) and whose
other errors are rethrown into the outer catch (line 132) — which also
returns `false`. -/
def verifyAdminPermissions (env : Env) : Bool :=
  match env.currentUser with
  | none => false
  | some (_, email) =>
    match env.refreshErr with
    | some _ => false
    | none =>
      if !env.isOnline && !env.networkReturns then
        false
      else if email == env.defaultAdminEmail then
        true
      else
        let claimOk := match env.verifyAdminRes with
          | .ok b => b
          | .error _ => false
        if claimOk then
          true
        else
          match env.userDocRead with
          | .ok (some userData) =>
            if userData.role == "admin" || userData.adminFlag == some true then
              true
            else
              false
          | .ok none => false
          | .error e =>
            if e.hasCode "permission-denied" then false
            else false

end Perm

/-- Details of an existing account, as the workflow reports them to the
caller (`existingUser` in both ApprovalResult interfaces; `authUid` is the
extra field of validation.ts's `UserExistenceCheck.details`). -/
structure ExistDetails where
  auth : Bool
  users : Bool
  sales : Bool
  authUid : Option String := none
  deriving DecidableEq, Repr

/-- The structured result both variants of `approveAuthRequest` resolve
to.  `uid` is the extra top-level property validation.ts attaches at line
442. -/
structure ApprovalResult where
  success : Bool
  userId : Option String := none
  error : Option String := none
  existingUser : Option ExistDetails := none
  uid : Option String := none
  deriving DecidableEq, Repr

/-- The data an admin submits with an approval
(`userData: Omit<UserProfile, 'id' | 'approved' | 'createdAt'>`, plus
validation.ts's optional `forceContinue`). -/
structure UserData where
  email : Option String := none
  name : String := ""
  role : String := ""
  staffCode : Option String := none
  storeIds : List String := []
  primaryStoreId : String := ""
  forceContinue : Bool := false
  deriving DecidableEq, Repr

/-- Events recorded while a workflow runs, used to state how often checks
and commits happen. -/
inductive Ev where
  | statusCheck (st : ReqStatus)
  | adminCheck (ok : Bool)
  | attemptEv (n : Nat)
  | sleepEv (ms : Nat)
  | waitNetworkEv (ok : Bool)
  | batchCommitted
  deriving DecidableEq, Repr

/-- Environment of one workflow call: outcomes of the external
collaborators.  `adminOk n` is the result of the (n+1)-th
`verifyAdminPermissions` call (which, per `Perm.verifyAdminPermissions`,
returns a Bool and never throws); `getRequestErr`, `createUserErr`,
`queryUsersErr`, `fetchMethodsErr` inject a thrown error into the
corresponding remote call (`none` meaning the call succeeds against the
current state); `commitErr n` is the error thrown by the n-th
`batch.commit` attempt; `freshUid` is the uid the identity provider mints
for a newly created account; `now` is the client clock. -/
structure WfEnv where
  isOnline : Bool := true
  networkReturns : Bool := true
  hasCurrentUser : Bool := true
  adminOk : Nat → Bool := fun _ => true
  getRequestErr : Option JsError := none
  createUserErr : Option JsError := none
  queryUsersErr : Option JsError := none
  fetchMethodsErr : Option JsError := none
  commitErr : Nat → Option JsError := fun _ => none
  freshUid : String := "uid-new"
  now : Nat := 0

/-- Mutable state threaded through a workflow run: the document store, the
identity provider's accounts, the count of `verifyAdminPermissions` calls
made so far, and the event trace. -/
structure RunState where
  fs : Firestore
  auth : AuthState
  adminCalls : Nat := 0
  trace : List Ev := []
  deriving Repr

/-- Append one event to the trace. -/
def addEv (st : RunState) (e : Ev) : RunState := { st with trace := st.trace ++ [e] }

/-- One write staged on the batch (`writeBatch(db)`). -/
inductive WriteOp where
  | setUser (id : String) (doc : ProfileDoc)
  | setSales (id : String) (doc : ProfileDoc)
  | approveRequest (id : String) (reviewerId : String)
  deriving DecidableEq, Repr

/-- Overwrite-or-insert a document in a collection (Firestore `set`). -/
def upsertDoc {α : Type} (l : List (String × α)) (id : String) (d : α) :
    List (String × α) :=
  (id, d) :: l.filter (fun p => p.1 != id)

/-- Apply one staged write. -/
def applyOp (fs : Firestore) : WriteOp → Firestore
  | .setUser id d => { fs with users := upsertDoc fs.users id d }
  | .setSales id d => { fs with salespeople := upsertDoc fs.salespeople id d }
  | .approveRequest id reviewerId =>
    { fs with authRequests := fs.authRequests.map (fun p =>
        if p.1 == id then
          (p.1, { p.2 with status := .approved,
                           reviewedBy := some reviewerId,
                           reviewedAt := some .server })
        else p) }

/-- Apply a whole batch atomically (the store's all-or-nothing batch
commit primitive, spec section 6). -/
def applyBatch (fs : Firestore) (b : List WriteOp) : Firestore :=
  b.foldl applyOp fs

/-- Options accepted by the Retry Engine, as the call sites pass them. -/
structure RetryOpts where
  maxAttempts : Nat
  initialDelay : Nat
  backoffMultiplier : Nat := 2
  waitForNetwork : Bool := false

/-- Modelled from the spec: the Retry Engine
(src/services/firebase/retry.ts) is not under src/ — only its call sites
are.  Spec section 4.1: `retry(operation, {maxAttempts, initialDelay,
backoffMultiplier=2, operationName, waitForNetwork=false})` invokes
`operation`; on failure, if attempts remain, sleeps
`initialDelay * backoffMultiplier^(attempt-1)` then retries; exhausting
attempts surfaces the last error unchanged.  This is the attempt loop:
`n` is the 1-based attempt number, `fuel` the remaining attempts. -/
def retryGo (op : Nat → RunState → Except JsError Unit × RunState)
    (o : RetryOpts) : Nat → Nat → RunState → Except JsError Unit × RunState
  | _, 0, st => (.error (.jsError "retry exhausted"), st)
  | n, fuel + 1, st =>
    let st := addEv st (.attemptEv n)
    match op n st with
    | (.ok a, st) => (.ok a, st)
    | (.error e, st) =>
      if fuel = 0 then (.error e, st)
      else
        let st := addEv st (.sleepEv (o.initialDelay * o.backoffMultiplier ^ (n - 1)))
        retryGo op o (n + 1) fuel st

/-- Modelled from the spec: the Retry Engine's entry point.  Spec section
4.1: if `waitForNetwork` is set and the Network Monitor reports offline, it
suspends (without consuming an attempt) until online or a timeout elapses;
a timeout surfaces a NetworkUnavailable error. -/
def retryRun (env : WfEnv) (op : Nat → RunState → Except JsError Unit × RunState)
    (o : RetryOpts) (st : RunState) : Except JsError Unit × RunState :=
  if o.waitForNetwork && !env.isOnline then
    let st := addEv st (.waitNetworkEv env.networkReturns)
    if env.networkReturns then retryGo op o 1 o.maxAttempts st
    else (.error (.jsError "No network connection available"), st)
  else retryGo op o 1 o.maxAttempts st

/- ------------------------------------------------------------------
Approval workflow, from src/src/services/auth/approval.ts
(approveAuthRequest, lines 34-303).
------------------------------------------------------------------ -/

namespace Approval

/-- approval.ts lines 59-69: up to three `verifyAdminPermissions` calls,
breaking on the first `true`, sleeping `1000 * (attempt + 1)` ms between
attempts. -/
def permLoop (env : WfEnv) (st : RunState) : Bool × RunState :=
  let ok0 := env.adminOk st.adminCalls
  let st := addEv { st with adminCalls := st.adminCalls + 1 } (.adminCheck ok0)
  if ok0 then (true, st)
  else
    let st := addEv st (.sleepEv 1000)
    let ok1 := env.adminOk st.adminCalls
    let st := addEv { st with adminCalls := st.adminCalls + 1 } (.adminCheck ok1)
    if ok1 then (true, st)
    else
      let st := addEv st (.sleepEv 2000)
      let ok2 := env.adminOk st.adminCalls
      let st := addEv { st with adminCalls := st.adminCalls + 1 } (.adminCheck ok2)
      (ok2, st)

/-- Outcome of the account-creation phase: a uid, an early non-success
result returned directly, or a thrown error. -/
inductive CreateOut where
  | uid (u : String)
  | early (r : ApprovalResult)
  | thrown (e : JsError)
  deriving Repr

/-- approval.ts lines 123-150: the catch around
`createUserWithEmailAndPassword`.  On `auth/email-already-in-use` it
queries the `users` collection by email (returning an early result when a
profile exists), then `fetchSignInMethodsForEmail` (returning the
`existingUser` result — with no `error` field — when the provider has the
account); in every other case the original error is rethrown. -/
def handleCreateErr (env : WfEnv) (email : String) (err : JsError)
    (st : RunState) : CreateOut × RunState :=
  if err.hasCode "auth/email-already-in-use" then
    match env.queryUsersErr with
    | some e2 => (.thrown e2, st)
    | none =>
      if !(st.fs.usersByEmail email).isEmpty then
        (.early { success := false,
                  error := some "This email already has an active account" }, st)
      else
        match env.fetchMethodsErr with
        | some e3 => (.thrown e3, st)
        | none =>
          if !(st.auth.signInMethods email).isEmpty then
            (.early { success := false,
                      existingUser := some { auth := true, users := false, sales := false } },
             st)
          else (.thrown err, st)
  else (.thrown err, st)

/-- approval.ts lines 110-161: create the identity-provider account.  When
creation succeeds a fresh uid is minted and registered; a thrown error
goes through `handleCreateErr`. -/
def createPhase (env : WfEnv) (email : String) (st : RunState) :
    CreateOut × RunState :=
  match env.createUserErr with
  | some e => handleCreateErr env email e st
  | none =>
    match st.auth.uidOf email with
    | some _ =>
      handleCreateErr env email
        (.firebase "auth/email-already-in-use"
          "The email address is already in use by another account.") st
    | none =>
      (.uid env.freshUid,
       { st with auth := { accounts := (email, env.freshUid) :: st.auth.accounts } })

/-- The `users` profile staged at approval.ts lines 169-184: note the
`admin` flag, the `|| ''` defaulting of `staffCode`, `serverTimestamp()`
for `createdAt`/`updatedAt` and an explicit `null` `lastLoginAt`. -/
def userProfileDoc (email : String) (ud : UserData) : ProfileDoc :=
  { email := email,
    name := jsTrim ud.name,
    role := ud.role,
    adminFlag := some (ud.role == "admin"),
    approved := true,
    staffCode := some ((ud.staffCode.map jsTrim).getD ""),
    storeIds := ud.storeIds,
    primaryStoreId := ud.primaryStoreId,
    createdAt := .server,
    lastLoginAt := some .nullTs,
    updatedAt := some .server }

/-- The `salespeople` profile staged at approval.ts lines 220-230:
`createdAt` is `new Date().toISOString()` and `updatedAt` a server
timestamp. -/
def salesProfileDoc (env : WfEnv) (email : String) (ud : UserData) : ProfileDoc :=
  { email := email,
    name := jsTrim ud.name,
    role := "team_member",
    approved := true,
    staffCode := ud.staffCode.map jsTrim,
    storeIds := ud.storeIds,
    primaryStoreId := ud.primaryStoreId,
    createdAt := .clientIso env.now,
    updatedAt := some .server }

/-- The full batch staged before the commit (approval.ts lines 163-239):
the user profile, the salesperson profile iff the role is `team_member`,
and the request status flip. -/
def fullBatch (env : WfEnv) (requestId reviewerId : String) (ud : UserData)
    (email uid : String) : List WriteOp :=
  [WriteOp.setUser uid (userProfileDoc email ud)]
  ++ (if ud.role == "team_member" then [WriteOp.setSales uid (salesProfileDoc env email ud)]
      else [])
  ++ [WriteOp.approveRequest requestId reviewerId]

/-- The operation passed to `retry` at approval.ts lines 245-252: each
attempt re-runs `verifyAdminPermissions`, throws when it fails, and only
then commits the batch. -/
def commitOp (env : WfEnv) (batch : List WriteOp) (n : Nat) (st : RunState) :
    Except JsError Unit × RunState :=
  let ok := env.adminOk st.adminCalls
  let st := addEv { st with adminCalls := st.adminCalls + 1 } (.adminCheck ok)
  if !ok then
    (.error (.jsError "Admin permissions required for this operation"), st)
  else
    match env.commitErr n with
    | some e => (.error e, st)
    | none => (.ok (), addEv { st with fs := applyBatch st.fs batch } .batchCommitted)

/-- approval.ts lines 244-257: the commit through the Retry Engine with
`maxAttempts: 5, initialDelay: 1000, waitForNetwork: true`. -/
def commitPhase (env : WfEnv) (batch : List WriteOp) (st : RunState) :
    Except JsError Unit × RunState :=
  retryRun env (commitOp env batch)
    { maxAttempts := 5, initialDelay := 1000, backoffMultiplier := 2,
      waitForNetwork := true } st

/-- The body of `approveAuthRequest` (approval.ts lines 42-270): network
and authentication guards, the admin-permission loop, input validation,
loading the request and its single status check, account creation, the
admin-claims side call (`getFunctions` is referenced at line 190 but never
imported in this module, so entering that branch throws a ReferenceError),
batch staging and the retried commit.  `.ok r` is a `return r`, `.error e`
a throw into the outer catch. -/
def body (env : WfEnv) (requestId reviewerId : String) (ud : UserData)
    (st : RunState) : Except JsError ApprovalResult × RunState :=
  if !env.isOnline then
    (.error (.jsError "No network connection available"), st)
  else if !env.hasCurrentUser then
    (.error (.jsError "You must be signed in to perform this action"), st)
  else
    match permLoop env st with
    | (hasPermission, st) =>
      if !hasPermission then
        (.error (.jsError "You do not have permission to approve requests"), st)
      else
        match ud.email.map normalizeEmail with
        | none => (.error (.jsError "Email address is required"), st)
        | some email =>
          if email == "" then (.error (.jsError "Email address is required"), st)
          else
            match env.getRequestErr with
            | some e => (.error e, st)
            | none =>
              match st.fs.getRequest requestId with
              | none => (.error (.jsError "Authentication request not found"), st)
              | some reqDoc =>
                let st := addEv st (.statusCheck reqDoc.status)
                if reqDoc.status == .approved || reqDoc.status == .rejected then
                  (.error (.firebase "failed-precondition"
                    "This request has already been processed"), st)
                else
                  match createPhase env email st with
                  | (.early r, st) => (.ok r, st)
                  | (.thrown e, st) => (.error e, st)
                  | (.uid uid, st) =>
                    if uid == "" then
                      (.error (.jsError "Failed to get valid user ID"), st)
                    else if ud.role == "admin" then
                      (.error (.referenceError "getFunctions"), st)
                    else
                      let batch := fullBatch env requestId reviewerId ud email uid
                      match commitPhase env batch st with
                      | (.error e, st) => (.error e, st)
                      | (.ok _, st) => (.ok { success := true, userId := some uid }, st)

/-- The outer catch at approval.ts lines 271-303: every thrown error is
mapped to a structured failure result. -/
def catchResult : JsError → ApprovalResult
  | .firebase code msg =>
    if code == "auth/email-already-in-use" then
      { success := false,
        error := some "This email is already registered with another account" }
    else if code == "auth/invalid-email" then
      { success := false, error := some "Invalid email address format" }
    else if code == "permission-denied" then
      { success := false,
        error := some "You do not have permission to approve requests" }
    else
      { success := false,
        error := some (if msg == "" then "Failed to approve request" else msg) }
  | .jsError msg => { success := false, error := some msg }
  | .referenceError n =>
    { success := false, error := some (JsError.message (.referenceError n)) }

/-- approval.ts `approveAuthRequest`: the body wrapped in the catch-all
handler; the promise always resolves to an `ApprovalResult`. -/
def approveAuthRequest (env : WfEnv) (requestId reviewerId : String)
    (ud : UserData) (st : RunState) : ApprovalResult × RunState :=
  match body env requestId reviewerId ud st with
  | (.ok r, st) => (r, st)
  | (.error e, st) => (catchResult e, st)

end Approval

/- ------------------------------------------------------------------
Provisioning workflow variant with forced continuation, from
src/src/services/auth/validation.ts (approveAuthRequest, lines 317-550).
------------------------------------------------------------------ -/

namespace Validation

/-- Presence report of the profile stores for an email
(`checkUserRecords` from './checks'). -/
structure UserRecords where
  users : Bool
  sales : Bool
  uid : Option String
  deriving DecidableEq, Repr

/-- Modelled from the spec: `checkUserRecords` lives in
src/services/auth/checks.ts, which is not under src/ — only its callers
are.  Spec section 4.6: for a normalized email, query the primary profile
store by email and the secondary profile store by email; the uid is the
one locatable via either profile store, and when no profile holds one the
uid stays unset. -/
def checkUserRecords (fs : Firestore) (email : String) : UserRecords :=
  let normalizedEmail := normalizeEmail email
  let u := fs.usersByEmail normalizedEmail
  let s := fs.salesByEmail normalizedEmail
  { users := !u.isEmpty,
    sales := !s.isEmpty,
    uid := (u.head?.map Prod.fst).or (s.head?.map Prod.fst) }

/-- Result of `checkAuthAccount` (validation.ts lines 137-184):
`accountExists` is the source's `exists` field. -/
structure AuthAccountCheck where
  accountExists : Bool
  uid : Option String
  deriving DecidableEq, Repr

/-- validation.ts lines 137-184: ask the identity provider for sign-in
methods, then resolve a uid through `checkUserRecords`.  Every error path
ends in a catch that degrades the answer (`invalid-api-key` and the outer
catch to `{exists: false, uid: null}`, a permission error on the record
read to `{exists: true, uid: null}`), so a thrown `fetchSignInMethods`
error yields `{exists: false, uid: null}`. -/
def checkAuthAccount (env : WfEnv) (fs : Firestore) (auth : AuthState)
    (email : String) : AuthAccountCheck :=
  let normalizedEmail := normalizeEmail email
  match env.fetchMethodsErr with
  | some _ => { accountExists := false, uid := none }
  | none =>
    if (auth.signInMethods normalizedEmail).isEmpty then
      { accountExists := false, uid := none }
    else
      let records := checkUserRecords fs normalizedEmail
      { accountExists := true, uid := records.uid }

/-- validation.ts lines 127-135, the `UserExistenceCheck` shape; `found`
is the source's `exists` field. -/
structure UserExistenceCheck where
  found : Bool
  details : ExistDetails
  deriving DecidableEq, Repr

/-- validation.ts lines 186-225: combine the provider check and the
profile-store check into one existence report (its catch returns the
all-false report, which the error-free reads here never hit). -/
def checkExistingUser (env : WfEnv) (fs : Firestore) (auth : AuthState)
    (email : String) : UserExistenceCheck :=
  let normalizedEmail := normalizeEmail email
  let authResult := checkAuthAccount env fs auth normalizedEmail
  let records := checkUserRecords fs normalizedEmail
  { found := authResult.accountExists || records.users || records.sales,
    details := { auth := authResult.accountExists,
                 authUid := authResult.uid,
                 users := records.users,
                 sales := records.sales } }

/-- validation.ts lines 227-244: the conflict message for an existence
report, `none` when provisioning may proceed. -/
def getExistingUserError (c : UserExistenceCheck) : Option String :=
  if !c.found then none
  else if c.details.users && c.details.sales then
    some "This account already exists. Please check User Management for account status."
  else if c.details.auth && !c.details.users && !c.details.sales then
    some "Authentication account exists. Click Continue to create required profiles."
  else if c.details.users || c.details.sales then
    some "Incomplete account records found. Please check User Management or contact administrator."
  else
    some "This email is already registered. Please use a different email address."

/-- Outcome of `createUserAccount`: a uid (with whether a fresh account
was minted) or a thrown error. -/
inductive CreateAcctOut where
  | usable (uid : String) (isNew : Bool)
  | thrown (e : JsError)
  deriving Repr

/-- validation.ts lines 246-315: reuse a passed-in uid, otherwise create
the provider account; on `auth/email-already-in-use` try to resolve a uid
from the profile stores and reuse it, else throw
`Failed to create or find user account`; other errors are rethrown
unchanged. -/
def createUserAccount (env : WfEnv) (email : String)
    (existingUid : Option String) (st : RunState) : CreateAcctOut × RunState :=
  let normalizedEmail := normalizeEmail email
  match existingUid with
  | some u => (.usable u false, st)
  | none =>
    let handle : JsError → CreateAcctOut := fun e =>
      if e.hasCode "auth/email-already-in-use" then
        match env.fetchMethodsErr with
        | some _ => .thrown (.jsError "Failed to create or find user account")
        | none =>
          if !(st.auth.signInMethods normalizedEmail).isEmpty then
            match (checkUserRecords st.fs normalizedEmail).uid with
            | some u => .usable u false
            | none => .thrown (.jsError "Failed to create or find user account")
          else .thrown (.jsError "Failed to create or find user account")
      else .thrown e
    match env.createUserErr with
    | some e => (handle e, st)
    | none =>
      match st.auth.uidOf normalizedEmail with
      | some _ =>
        (handle (.firebase "auth/email-already-in-use"
          "The email address is already in use by another account."), st)
      | none =>
        (.usable env.freshUid true,
         { st with auth := { accounts := (normalizedEmail, env.freshUid) :: st.auth.accounts } })

/-- The `users` profile staged at validation.ts lines 463-474:
`createdAt` is `new Date().toISOString()`, `lastLoginAt` an explicit
`null`, and `staffCode` stays absent when `userData.staffCode` is. -/
def userProfileDoc (env : WfEnv) (email : String) (ud : UserData) : ProfileDoc :=
  { email := email,
    name := jsTrim ud.name,
    role := ud.role,
    approved := true,
    staffCode := ud.staffCode.map jsTrim,
    storeIds := ud.storeIds,
    primaryStoreId := ud.primaryStoreId,
    createdAt := .clientIso env.now,
    lastLoginAt := some .nullTs }

/-- The `salespeople` profile staged at validation.ts lines 479-488. -/
def salesProfileDoc (email : String) (ud : UserData) : ProfileDoc :=
  { email := email,
    name := jsTrim ud.name,
    role := ud.role,
    approved := true,
    staffCode := ud.staffCode.map jsTrim,
    storeIds := ud.storeIds,
    primaryStoreId := ud.primaryStoreId,
    createdAt := .server }

/-- The batch staged at validation.ts lines 458-496. -/
def fullBatch (env : WfEnv) (requestId reviewerId : String) (ud : UserData)
    (email uid : String) : List WriteOp :=
  [WriteOp.setUser uid (userProfileDoc env email ud)]
  ++ (if ud.role == "team_member" then [WriteOp.setSales uid (salesProfileDoc email ud)]
      else [])
  ++ [WriteOp.approveRequest requestId reviewerId]

/-- The catch around `createUserAccount` at validation.ts lines 427-455:
on `auth/email-already-in-use` with a resolvable uid and no profile
records it returns the needs-confirmation result (carrying the uid);
other FirebaseErrors map to a message result; everything else is
rethrown. -/
def createCatch (st : RunState) (email : String) (e : JsError) :
    Except JsError ApprovalResult :=
  if e.isFirebase then
    let records := checkUserRecords st.fs email
    if e.hasCode "auth/email-already-in-use"
        && records.uid.isSome && !records.users && !records.sales then
      .ok { success := false,
            existingUser := some { auth := true, users := false, sales := false },
            uid := records.uid,
            error := some "This email already has an authentication account. Click Continue to create the necessary profiles." }
    else
      .ok { success := false,
            error := some (if e.hasCode "auth/email-already-in-use" then
                "This email is already registered. Please use a different email address."
              else if e.message == "" then "Failed to create user account"
              else e.message) }
  else .error e

/-- The first existence gate (validation.ts lines 350-366): when the
check reports a conflict, the returned failure carries the message and
the report's details. -/
def firstGateResult (env : WfEnv) (fs : Firestore) (auth : AuthState)
    (email : String) : Option ApprovalResult :=
  let existingUser := checkExistingUser env fs auth email
  match getExistingUserError existingUser with
  | some msg =>
    some { success := false,
           existingUser := some existingUser.details,
           error := some msg }
  | none => none

/-- The pre-mutation existence gate (validation.ts lines 383-408):
continuation is allowed for an orphaned provider account under
forceContinue (and, falling through both arms, whenever forceContinue is
set); without forceContinue the failure carries the branch's message. -/
def finalGateResult (finalCheck : UserExistenceCheck) (forceContinue : Bool) :
    Option ApprovalResult :=
  if finalCheck.found then
    let d := finalCheck.details
    if d.auth && !d.users && !d.sales && forceContinue then
      none
    else if !forceContinue then
      some { success := false,
             existingUser := some d,
             error := some (if d.users || d.sales then
                 "This account already exists. Please check User Management for account status."
               else if d.auth then
                 "Authentication account exists. Click Continue to create required profiles."
               else
                 "This email is already registered. Please use a different email address.") }
    else none
  else none

/-- The body of validation.ts `approveAuthRequest` (lines 329-507):
permission check, input validation, the skippable first existence check,
loading the request with its single status check, the pre-mutation second
existence check, account creation/reuse, batch staging and one unretried
`batch.commit` (whose outcome `commitErr 1` decides). -/
def body (env : WfEnv) (requestId reviewerId : String) (ud : UserData)
    (st : RunState) : Except JsError ApprovalResult × RunState :=
  let ok := env.adminOk st.adminCalls
  let st := addEv { st with adminCalls := st.adminCalls + 1 } (.adminCheck ok)
  if !ok then
    (.error (.jsError "You do not have permission to approve requests"), st)
  else
    match ud.email.map normalizeEmail with
    | none => (.error (.jsError "Email address is required"), st)
    | some email =>
      if email == "" then (.error (.jsError "Email address is required"), st)
      else if !env.hasCurrentUser then
        (.error (.jsError "Not authenticated"), st)
      else
        let firstGate : Option ApprovalResult :=
          if !ud.forceContinue then firstGateResult env st.fs st.auth email
          else none
        match firstGate with
        | some r => (.ok r, st)
        | none =>
          match env.getRequestErr with
          | some e => (.error e, st)
          | none =>
            match st.fs.getRequest requestId with
            | none => (.error (.jsError "Authentication request not found"), st)
            | some reqDoc =>
              let st := addEv st (.statusCheck reqDoc.status)
              if reqDoc.status == .approved || reqDoc.status == .rejected then
                (.error (.jsError "This request has already been processed"), st)
              else
                let finalCheck := checkExistingUser env st.fs st.auth email
                let finalGate : Option ApprovalResult :=
                  finalGateResult finalCheck ud.forceContinue
                match finalGate with
                | some r => (.ok r, st)
                | none =>
                  match createUserAccount env email finalCheck.details.authUid st with
                  | (.thrown e, st) => (createCatch st email e, st)
                  | (.usable uid _, st) =>
                    if uid == "" then
                      (.error (.jsError "Failed to get valid user ID"), st)
                    else
                      let batch := fullBatch env requestId reviewerId ud email uid
                      match env.commitErr 1 with
                      | some e => (.error e, st)
                      | none =>
                        (.ok { success := true, userId := some uid },
                         addEv { st with fs := applyBatch st.fs batch } .batchCommitted)

/-- The outer catch at validation.ts lines 509-549. -/
def catchResult : JsError → ApprovalResult
  | .firebase code msg =>
    if code == "auth/email-already-in-use" then
      { success := false,
        error := some "This email is already registered with another account. Please use a different email address." }
    else if code == "auth/invalid-email" then
      { success := false, error := some "Invalid email address format" }
    else if code == "permission-denied" then
      { success := false,
        error := some "You do not have permission to approve requests" }
    else
      { success := false,
        error := some (if msg == "" then "Failed to approve request" else msg) }
  | .jsError msg => { success := false, error := some msg }
  | .referenceError n =>
    { success := false, error := some (JsError.message (.referenceError n)) }

/-- validation.ts `approveAuthRequest`: the body wrapped in the catch-all
handler. -/
def approveAuthRequest (env : WfEnv) (requestId reviewerId : String)
    (ud : UserData) (st : RunState) : ApprovalResult × RunState :=
  match body env requestId reviewerId ud st with
  | (.ok r, st) => (r, st)
  | (.error e, st) => (catchResult e, st)

end Validation

/- ------------------------------------------------------------------
Concrete scenario inputs used by counterexamples and witnesses.
------------------------------------------------------------------ -/

/-- A pending registration request for a@b.com. -/
def reqPending : AuthRequestDoc := { email := "a@b.com", password := "pw", status := .pending }

/-- The same request already approved. -/
def reqApproved : AuthRequestDoc := { email := "a@b.com", password := "pw", status := .approved }

/-- Approval form data for a team member. -/
def udTm : UserData := { email := some "a@b.com", name := "N", role := "team_member" }

/-- The same form data with the force-continue flag set. -/
def udTmForce : UserData := { udTm with forceContinue := true }

/-- Store with only the pending request; no accounts, no profiles. -/
def stPend : RunState := { fs := { authRequests := [("r1", reqPending)] }, auth := {} }

/-- Store whose request is already approved. -/
def stApprovedReq : RunState := { fs := { authRequests := [("r1", reqApproved)] }, auth := {} }

/-- Store where the identity provider has an account for the email but no
profile document exists (the orphaned-credential state). -/
def stAuthOnly : RunState :=
  { fs := { authRequests := [("r1", reqPending)] },
    auth := { accounts := [("a@b.com", "u77")] } }

/-- An existing team-member profile document. -/
def profTm : ProfileDoc :=
  { email := "a@b.com", name := "N", role := "team_member", approved := true,
    createdAt := .server }

/-- Store where the provider account and both profile documents exist (the
fully provisioned state). -/
def stBoth : RunState :=
  { fs := { authRequests := [("r1", reqPending)],
            users := [("u77", profTm)],
            salespeople := [("u77", profTm)] },
    auth := { accounts := [("a@b.com", "u77")] } }

/-- Environment whose every `verifyAdminPermissions` call returns false. -/
def envAllAdminFail : WfEnv := { adminOk := fun _ => false }

/-- Permission environment of a caller whose email IS the configured
privileged one, but whose initial token refresh fails with a plain network
error (not a permission-denied condition). -/
def permEnvRefreshFail : Perm.Env :=
  { currentUser := some ("u1", "root@admin"),
    refreshErr := some (.jsError "Network request failed"),
    defaultAdminEmail := "root@admin" }

/-- Recognize a status-check event. -/
def isStatusCheckEv : Ev → Bool
  | .statusCheck _ => true
  | _ => false

/-- How many times the workflow read and tested the request's status. -/
def countStatus (t : List Ev) : Nat := (t.filter isStatusCheckEv).length

/-- Recognize an admin-permission-check event. -/
def isAdminCheckEv : Ev → Bool
  | .adminCheck _ => true
  | _ => false

/-- How many `verifyAdminPermissions` calls the trace records. -/
def countAdminChecks (t : List Ev) : Nat := (t.filter isAdminCheckEv).length

/-- Recognize a retry-attempt event. -/
def isAttemptMark : Ev → Bool
  | .attemptEv _ => true
  | _ => false

/-- How many commit attempts the trace records. -/
def countAttempts (t : List Ev) : Nat := (t.filter isAttemptMark).length

/-- Recognize a successful batch commit event. -/
def isCommitMark : Ev → Bool
  | .batchCommitted => true
  | _ => false

/-- How many successful batch commits the trace records. -/
def countCommitted (t : List Ev) : Nat := (t.filter isCommitMark).length

/-- A scheduler state whose one armed timer is the tracked one and whose
continuations have all run. -/
def schedQuiet : Sched.State :=
  { pendingArms := 0, armed := [5], timeoutId := some 5, nextId := 6,
    disposed := false, firedAfterDispose := 0 }

/- ------------------------------------------------------------------
Helper lemmas on traces and the machines.
------------------------------------------------------------------ -/

theorem countStatus_append (t u : List Ev) :
    countStatus (t ++ u) = countStatus t + countStatus u := by
  simp [countStatus, List.filter_append]

theorem countAdminChecks_append (t u : List Ev) :
    countAdminChecks (t ++ u) = countAdminChecks t + countAdminChecks u := by
  simp [countAdminChecks, List.filter_append]

theorem countAttempts_append (t u : List Ev) :
    countAttempts (t ++ u) = countAttempts t + countAttempts u := by
  simp [countAttempts, List.filter_append]

theorem countCommitted_append (t u : List Ev) :
    countCommitted (t ++ u) = countCommitted t + countCommitted u := by
  simp [countCommitted, List.filter_append]

/-- A step of the scheduler machine from an inert state stays inert and
fires nothing. -/
theorem Sched.step_inert (s : Sched.State) (a : Sched.Action)
    (h0 : s.pendingArms = 0) (h1 : s.armed = []) :
    (Sched.step s a).pendingArms = 0 ∧ (Sched.step s a).armed = [] ∧
    (Sched.step s a).firedAfterDispose = s.firedAfterDispose := by
  cases a with
  | runArm => simp [Sched.step, h0, h1]
  | fire i => simp [Sched.step, h0, h1]
  | dispose => cases h : s.timeoutId <;> simp [Sched.step, h, h0, h1]

/-- Any run from an inert state fires nothing more. -/
theorem Sched.run_inert (acts : List Sched.Action) :
    ∀ s : Sched.State, s.pendingArms = 0 → s.armed = [] →
    (Sched.run s acts).firedAfterDispose = s.firedAfterDispose := by
  induction acts with
  | nil => intro s _ _; rfl
  | cons a rest ih =>
    intro s h0 h1
    obtain ⟨g0, g1, g2⟩ := Sched.step_inert s a h0 h1
    simpa [Sched.run, g2] using (ih (Sched.step s a) g0 g1).trans g2

/- ------------------------------------------------------------------
C6, C7, C8: the session refresh scheduler.
------------------------------------------------------------------ -/

/-- C6: on session start, `setupSessionRefresh` computes
`timeUntilRefresh = max(0, SESSION_TIMEOUT - REFRESH_THRESHOLD - tokenAge)`
with `tokenAge = now - credentialIssuedAt`, SESSION_TIMEOUT = 55 minutes
and REFRESH_THRESHOLD = 5 minutes, and arms the timer with exactly that
non-negative delay. -/
theorem c6_refresh_delay_formula (now issuedAtMs : Int) :
    Refresh.armedDelay now issuedAtMs = Refresh.specTimeUntilRefresh now issuedAtMs ∧
    Refresh.armedDelay now issuedAtMs = Refresh.timeUntilRefresh now issuedAtMs ∧
    0 ≤ Refresh.armedDelay now issuedAtMs := by
  have key : Refresh.armedDelay now issuedAtMs = Refresh.timeUntilRefresh now issuedAtMs := by
    rw [Refresh.armedDelay, Refresh.timeUntilRefresh, ← max_assoc, max_self]
  refine ⟨?_, key, le_max_left 0 _⟩
  rw [key, Refresh.timeUntilRefresh, Refresh.specTimeUntilRefresh,
    Refresh.SESSION_TIMEOUT, Refresh.REFRESH_THRESHOLD]

/-- C7: the claim says a refresh failure notifies `onError` and re-arms
after a fixed retry delay.  The code instead evaluates the undefined
identifier `REFRESH_RETRY_DELAY` (refresh.ts line 82), so the failing
cycle dies with an uncaught ReferenceError: no re-arm, no `onError`. -/
theorem c7_refresh_failure_uncaught :
    Refresh.failureBranch =
      Refresh.FailOutcome.uncaught (JsError.referenceError "REFRESH_RETRY_DELAY") ∧
    ∀ d onErrCalled, Refresh.failureBranch ≠ Refresh.FailOutcome.rearmed d onErrCalled := by
  refine ⟨rfl, ?_⟩
  intro d onErrCalled h
  simp [Refresh.failureBranch, Refresh.REFRESH_RETRY_DELAY?] at h

/-- C8 counterexample: the disposer is invoked while the initial
`scheduleNextCheck` is still awaiting the token result (before any timer
is armed); the continuation then arms its timer anyway and the refresh
cycle fires after teardown — refuting that once the disposer has been
invoked no further refresh cycle fires. -/
theorem c8_counterexample_fire_after_dispose :
    (Sched.run Sched.init
      [Sched.Action.dispose, Sched.Action.runArm, Sched.Action.fire 0]).disposed = true ∧
    (Sched.run Sched.init
      [Sched.Action.dispose, Sched.Action.runArm, Sched.Action.fire 0]).firedAfterDispose = 1 := by
  exact ⟨rfl, rfl⟩

/-- C8 amended: the disposer clears the pending timer it tracks — when it
is invoked in a state where no `scheduleNextCheck` continuation is in
flight and the armed timer is the tracked one, no further refresh cycle
ever fires. -/
theorem c8_amended_disposer_clears (s : Sched.State) (acts : List Sched.Action)
    (hArms : s.pendingArms = 0) (hTracked : s.armed = s.timeoutId.toList) :
    (Sched.run (Sched.step s Sched.Action.dispose) acts).firedAfterDispose =
      s.firedAfterDispose := by
  have h1 : (Sched.step s Sched.Action.dispose).armed = [] := by
    cases h : s.timeoutId <;> simp [Sched.step, h, hTracked]
  have h0 : (Sched.step s Sched.Action.dispose).pendingArms = 0 := by
    cases h : s.timeoutId <;> simp [Sched.step, h, hArms]
  have h2 : (Sched.step s Sched.Action.dispose).firedAfterDispose = s.firedAfterDispose := by
    cases h : s.timeoutId <;> simp [Sched.step, h]
  rw [Sched.run_inert acts _ h0 h1, h2]

/-- C8 witness: a quiet state disposed, then arbitrary later activity —
nothing fires. -/
theorem c8_amended_witness :
    (Sched.run (Sched.step schedQuiet Sched.Action.dispose)
      [Sched.Action.runArm, Sched.Action.fire 5, Sched.Action.fire 6]).firedAfterDispose = 0 :=
  c8_amended_disposer_clears schedQuiet
    [Sched.Action.runArm, Sched.Action.fire 5, Sched.Action.fire 6] rfl rfl

/- ------------------------------------------------------------------
C9: the admin permission resolver.
------------------------------------------------------------------ -/

/-- C9 counterexample: the caller's email IS the configured privileged one
(check 1 would succeed) and the only error is a plain network error on the
initial token refresh — not a permission-denied condition — yet
`verifyAdminPermissions` returns false, refuting that false arises only
when every check fails or errors with permission-denied. -/
theorem c9_counterexample_network_error_false :
    Perm.verifyAdminPermissions permEnvRefreshFail = false ∧
    permEnvRefreshFail.currentUser = some ("u1", "root@admin") ∧
    permEnvRefreshFail.defaultAdminEmail = "root@admin" ∧
    permEnvRefreshFail.refreshErr = some (.jsError "Network request failed") ∧
    (JsError.jsError "Network request failed").hasCode "permission-denied" = false :=
  ⟨rfl, rfl, rfl, rfl, rfl⟩

/-- C9 amended: `verifyAdminPermissions` returns true exactly when the
guards pass error-free and one of the ordered checks succeeds; every
error — permission-denied or not — is degraded to false (the function
never throws a boolean-position error to its caller). -/
theorem c9_amended_true_characterization (env : Perm.Env) :
    Perm.verifyAdminPermissions env = true ↔
      ∃ uid email, env.currentUser = some (uid, email) ∧
        env.refreshErr = none ∧
        (env.isOnline = true ∨ env.networkReturns = true) ∧
        (email = env.defaultAdminEmail ∨ env.verifyAdminRes = .ok true ∨
          ∃ d, env.userDocRead = .ok (some d) ∧
            (d.role = "admin" ∨ d.adminFlag = some true)) := by
  unfold Perm.verifyAdminPermissions
  cases hu : env.currentUser with
  | none => simp
  | some p =>
    obtain ⟨uid, email⟩ := p
    cases hr : env.refreshErr with
    | some e => simp
    | none =>
      by_cases hoff : (!env.isOnline && !env.networkReturns) = true
      · have h1 : env.isOnline = false := by
          revert hoff; cases env.isOnline <;> simp
        have h2 : env.networkReturns = false := by
          revert hoff; cases env.networkReturns <;> simp
        simp [hoff, h1, h2]
      · have hOn : env.isOnline = true ∨ env.networkReturns = true := by
          revert hoff; cases env.isOnline <;> cases env.networkReturns <;> simp
        by_cases hd : (email == env.defaultAdminEmail) = true
        · have hde : email = env.defaultAdminEmail := by simpa using hd
          simp only [hoff, if_false, hd, if_true]
          constructor
          · intro _
            exact ⟨uid, email, rfl, trivial, hOn, Or.inl hde⟩
          · intro _
            rfl
        · have hdne : ¬ email = env.defaultAdminEmail := by
            intro hcon; exact hd (by simp [hcon])
          cases hv : env.verifyAdminRes with
          | ok b =>
            cases b with
            | true => simp [hoff, hd, hv, hdne, hOn]
            | false =>
              cases hdoc : env.userDocRead with
              | ok od =>
                cases od with
                | none => simp [hoff, hd, hv, hdoc, hdne]
                | some d => simp [hoff, hd, hv, hdoc, hdne, hOn, and_assoc]
              | error e3 => simp [hoff, hd, hv, hdoc, hdne]
          | error e2 =>
            cases hdoc : env.userDocRead with
            | ok od =>
              cases od with
              | none => simp [hoff, hd, hv, hdoc, hdne]
              | some d => simp [hoff, hd, hv, hdoc, hdne, hOn, and_assoc]
            | error e3 => simp [hoff, hd, hv, hdoc, hdne]

/- ------------------------------------------------------------------
C5: the commit step's retry profile.
------------------------------------------------------------------ -/

/-- One commit attempt: no attempt marks of its own, exactly one admin
check; on success the batch is applied and recorded once, on error the
store is untouched. -/
theorem commitOp_spec (env : WfEnv) (batch : List WriteOp) (n : Nat) (st : RunState) :
    countAttempts (Approval.commitOp env batch n st).2.trace = countAttempts st.trace ∧
    countAdminChecks (Approval.commitOp env batch n st).2.trace
      = countAdminChecks st.trace + 1 ∧
    ((Approval.commitOp env batch n st).1 = .ok () →
      (Approval.commitOp env batch n st).2.fs = applyBatch st.fs batch ∧
      countCommitted (Approval.commitOp env batch n st).2.trace
        = countCommitted st.trace + 1) ∧
    (∀ e, (Approval.commitOp env batch n st).1 = .error e →
      (Approval.commitOp env batch n st).2.fs = st.fs ∧
      countCommitted (Approval.commitOp env batch n st).2.trace
        = countCommitted st.trace) := by
  unfold Approval.commitOp
  cases hok : env.adminOk st.adminCalls with
  | false =>
    simp [addEv, countAttempts, countAdminChecks, countCommitted,
      isAttemptMark, isAdminCheckEv, isCommitMark, List.filter_append]
  | true =>
    cases hc : env.commitErr n with
    | some e =>
      simp [hc, addEv, countAttempts, countAdminChecks, countCommitted,
        isAttemptMark, isAdminCheckEv, isCommitMark, List.filter_append]
    | none =>
      simp [hc, addEv, countAttempts, countAdminChecks, countCommitted,
        isAttemptMark, isAdminCheckEv, isCommitMark, List.filter_append]

/-- The retry loop around the commit attempt: at most `fuel` attempts,
one admin check per attempt, and the batch lands exactly once on success
and never on failure. -/
theorem retryGo_commitOp_spec (env : WfEnv) (batch : List WriteOp) (o : RetryOpts) :
    ∀ fuel n st,
      (∃ k, k ≤ fuel ∧
        countAttempts (retryGo (Approval.commitOp env batch) o n fuel st).2.trace
          = countAttempts st.trace + k ∧
        countAdminChecks (retryGo (Approval.commitOp env batch) o n fuel st).2.trace
          = countAdminChecks st.trace + k) ∧
      ((retryGo (Approval.commitOp env batch) o n fuel st).1 = .ok () →
        (retryGo (Approval.commitOp env batch) o n fuel st).2.fs
          = applyBatch st.fs batch ∧
        countCommitted (retryGo (Approval.commitOp env batch) o n fuel st).2.trace
          = countCommitted st.trace + 1) ∧
      (∀ e, (retryGo (Approval.commitOp env batch) o n fuel st).1 = .error e →
        (retryGo (Approval.commitOp env batch) o n fuel st).2.fs = st.fs ∧
        countCommitted (retryGo (Approval.commitOp env batch) o n fuel st).2.trace
          = countCommitted st.trace) := by
  intro fuel
  induction fuel with
  | zero =>
    intro n st
    refine ⟨⟨0, by omega, by simp [retryGo], by simp [retryGo]⟩, ?_, ?_⟩
    · intro h; simp [retryGo] at h
    · intro e h; simp [retryGo]
  | succ fuel ih =>
    intro n st
    have hstep := commitOp_spec env batch n (addEv st (.attemptEv n))
    have hsa : countAttempts (addEv st (.attemptEv n)).trace
        = countAttempts st.trace + 1 := by
      simp [addEv, countAttempts_append, countAttempts, isAttemptMark]
    have hsb : countAdminChecks (addEv st (.attemptEv n)).trace
        = countAdminChecks st.trace := by
      simp [addEv, countAdminChecks_append, countAdminChecks, isAdminCheckEv]
    have hsc : countCommitted (addEv st (.attemptEv n)).trace
        = countCommitted st.trace := by
      simp [addEv, countCommitted_append, countCommitted, isCommitMark]
    have hsf : (addEv st (.attemptEv n)).fs = st.fs := rfl
    rcases hq : Approval.commitOp env batch n (addEv st (.attemptEv n)) with ⟨r, st2⟩
    rw [hq] at hstep
    dsimp only at hstep
    cases r with
    | ok a =>
      obtain ⟨ha1, ha2, ha3, _⟩ := hstep
      obtain ⟨hfs, hcom⟩ := ha3 rfl
      have hred : retryGo (Approval.commitOp env batch) o n (fuel + 1) st = (.ok a, st2) := by
        simp [retryGo, hq]
      rw [hred]
      dsimp only
      refine ⟨⟨1, by omega, by omega, by omega⟩, ?_, ?_⟩
      · intro _
        exact ⟨by rw [hfs, hsf], by omega⟩
      · intro e he
        simp at he
    | error e0 =>
      obtain ⟨ha1, ha2, _, ha4⟩ := hstep
      obtain ⟨hfs, hcom⟩ := ha4 e0 rfl
      by_cases hz : fuel = 0
      · subst hz
        have hred : retryGo (Approval.commitOp env batch) o n (0 + 1) st = (.error e0, st2) := by
          simp [retryGo, hq]
        rw [hred]
        dsimp only
        refine ⟨⟨1, by omega, by omega, by omega⟩, ?_, ?_⟩
        · intro h; simp at h
        · intro e he
          exact ⟨by rw [hfs, hsf], by omega⟩
      · have hred : retryGo (Approval.commitOp env batch) o n (fuel + 1) st
            = retryGo (Approval.commitOp env batch) o (n + 1) fuel
               (addEv st2 (.sleepEv (o.initialDelay * o.backoffMultiplier ^ (n - 1)))) := by
          simp [retryGo, hq, hz]
        have e3a : countAttempts (addEv st2 (.sleepEv (o.initialDelay * o.backoffMultiplier ^ (n - 1)))).trace
            = countAttempts st2.trace := by
          simp [addEv, countAttempts_append, countAttempts, isAttemptMark]
        have e3b : countAdminChecks (addEv st2 (.sleepEv (o.initialDelay * o.backoffMultiplier ^ (n - 1)))).trace
            = countAdminChecks st2.trace := by
          simp [addEv, countAdminChecks_append, countAdminChecks, isAdminCheckEv]
        have e3c : countCommitted (addEv st2 (.sleepEv (o.initialDelay * o.backoffMultiplier ^ (n - 1)))).trace
            = countCommitted st2.trace := by
          simp [addEv, countCommitted_append, countCommitted, isCommitMark]
        have e3f : (addEv st2 (.sleepEv (o.initialDelay * o.backoffMultiplier ^ (n - 1)))).fs
            = st2.fs := rfl
        obtain ⟨⟨k, hk, hk1, hk2⟩, hok, herr⟩ :=
          ih (n + 1) (addEv st2 (.sleepEv (o.initialDelay * o.backoffMultiplier ^ (n - 1))))
        rw [hred]
        refine ⟨⟨k + 1, by omega, by omega, by omega⟩, ?_, ?_⟩
        · intro h
          obtain ⟨hf2, hc2⟩ := hok h
          refine ⟨?_, by omega⟩
          rw [hf2, e3f, hfs, hsf]
        · intro e he
          obtain ⟨hf2, hc2⟩ := herr e he
          refine ⟨?_, by omega⟩
          rw [hf2, e3f, hfs, hsf]

/-- C5: the commit step of `approveAuthRequest` (approval.ts lines
244-257) runs through the Retry Engine with maxAttempts 5, initialDelay
1000 and waitForNetwork set: every attempt re-verifies admin permission
(the attempt and admin-check counts advance in lockstep, at most 5 of
each), an attempt whose permission check fails throws before committing,
the offline-without-recovery case fails with zero attempts, and with the
permission revoked throughout the commit makes exactly 5 attempts with
exponential backoff delays 1000, 2000, 4000, 8000 ms and never lands. -/
theorem c5_commit_retry_profile (env : WfEnv) (batch : List WriteOp) (st : RunState) :
    (∃ k, k ≤ 5 ∧
      countAttempts (Approval.commitPhase env batch st).2.trace
        = countAttempts st.trace + k ∧
      countAdminChecks (Approval.commitPhase env batch st).2.trace
        = countAdminChecks st.trace + k) ∧
    (env.isOnline = false → env.networkReturns = false →
      (Approval.commitPhase env batch st).1
        = .error (.jsError "No network connection available") ∧
      countAttempts (Approval.commitPhase env batch st).2.trace
        = countAttempts st.trace) ∧
    (∀ n st2, env.adminOk st2.adminCalls = false →
      (Approval.commitOp env batch n st2).1
        = .error (.jsError "Admin permissions required for this operation")) ∧
    ((Approval.commitPhase envAllAdminFail [] stPend).1
      = .error (.jsError "Admin permissions required for this operation") ∧
     (Approval.commitPhase envAllAdminFail [] stPend).2.trace
      = [.attemptEv 1, .adminCheck false, .sleepEv 1000,
         .attemptEv 2, .adminCheck false, .sleepEv 2000,
         .attemptEv 3, .adminCheck false, .sleepEv 4000,
         .attemptEv 4, .adminCheck false, .sleepEv 8000,
         .attemptEv 5, .adminCheck false] ∧
     (Approval.commitPhase envAllAdminFail [] stPend).2.fs = stPend.fs) := by
  refine ⟨?_, ?_, ?_, ⟨rfl, rfl, rfl⟩⟩
  · cases ho : env.isOnline with
    | true =>
      have hred : Approval.commitPhase env batch st
          = retryGo (Approval.commitOp env batch)
              { maxAttempts := 5, initialDelay := 1000, backoffMultiplier := 2,
                waitForNetwork := true } 1 5 st := by
        simp [Approval.commitPhase, retryRun, ho]
      rw [hred]
      exact (retryGo_commitOp_spec env batch _ 5 1 st).1
    | false =>
      cases hw : env.networkReturns with
      | false =>
        have hred : Approval.commitPhase env batch st
            = (.error (.jsError "No network connection available"),
               addEv st (.waitNetworkEv false)) := by
          simp [Approval.commitPhase, retryRun, ho, hw]
        rw [hred]
        refine ⟨0, by omega, ?_, ?_⟩ <;>
          simp [addEv, countAttempts_append, countAttempts, isAttemptMark,
            countAdminChecks_append, countAdminChecks, isAdminCheckEv]
      | true =>
        have hred : Approval.commitPhase env batch st
            = retryGo (Approval.commitOp env batch)
                { maxAttempts := 5, initialDelay := 1000, backoffMultiplier := 2,
                  waitForNetwork := true } 1 5 (addEv st (.waitNetworkEv true)) := by
          simp [Approval.commitPhase, retryRun, ho, hw]
        rw [hred]
        obtain ⟨⟨k, hk, hk1, hk2⟩, _, _⟩ :=
          retryGo_commitOp_spec env batch
            { maxAttempts := 5, initialDelay := 1000, backoffMultiplier := 2,
              waitForNetwork := true } 5 1 (addEv st (.waitNetworkEv true))
        have w1 : countAttempts (addEv st (.waitNetworkEv true)).trace
            = countAttempts st.trace := by
          simp [addEv, countAttempts_append, countAttempts, isAttemptMark]
        have w2 : countAdminChecks (addEv st (.waitNetworkEv true)).trace
            = countAdminChecks st.trace := by
          simp [addEv, countAdminChecks_append, countAdminChecks, isAdminCheckEv]
        exact ⟨k, hk, by omega, by omega⟩
  · intro ho hw
    have hred : Approval.commitPhase env batch st
        = (.error (.jsError "No network connection available"),
           addEv st (.waitNetworkEv false)) := by
      simp [Approval.commitPhase, retryRun, ho, hw]
    rw [hred]
    refine ⟨rfl, ?_⟩
    simp [addEv, countAttempts_append, countAttempts, isAttemptMark]
  · intro n st2 h
    simp [Approval.commitOp, h]

/- ------------------------------------------------------------------
Frame lemmas for the approval workflow.
------------------------------------------------------------------ -/

/-- `handleCreateErr` returns the state unchanged in every branch. -/
theorem handleCreateErr_snd (env : WfEnv) (email : String) (err : JsError)
    (st : RunState) : (Approval.handleCreateErr env email err st).2 = st := by
  unfold Approval.handleCreateErr
  repeat' split
  all_goals rfl

/-- The account-creation phase touches neither the document store nor the
trace (it only registers the new provider account). -/
theorem createPhase_frame (env : WfEnv) (email : String) (st : RunState) :
    (Approval.createPhase env email st).2.fs = st.fs ∧
    (Approval.createPhase env email st).2.trace = st.trace ∧
    (Approval.createPhase env email st).2.adminCalls = st.adminCalls := by
  unfold Approval.createPhase
  cases env.createUserErr with
  | some e => simp [handleCreateErr_snd]
  | none =>
    cases st.auth.uidOf email with
    | some u => simp [handleCreateErr_snd]
    | none => exact ⟨rfl, rfl, rfl⟩

/-- An early result out of the account-creation phase is a structured
failure: not a success, and carrying a message or the existing-user
details. -/
theorem createPhase_early_shape (env : WfEnv) (email : String) (st : RunState)
    (r : ApprovalResult) (h : (Approval.createPhase env email st).1 = .early r) :
    r.success = false ∧ (r.error.isSome = true ∨ r.existingUser.isSome = true) := by
  unfold Approval.createPhase at h
  have hh : ∀ (err : JsError) (st0 : RunState),
      (Approval.handleCreateErr env email err st0).1 = .early r →
      r.success = false ∧ (r.error.isSome = true ∨ r.existingUser.isSome = true) := by
    intro err st0 h0
    unfold Approval.handleCreateErr at h0
    repeat' split at h0
    all_goals cases h0
    all_goals simp
  revert h
  cases env.createUserErr with
  | some e => exact hh e st
  | none =>
    cases st.auth.uidOf email with
    | some u => exact hh _ st
    | none => intro h; simp at h

/-- The permission loop touches neither the document store nor the commit
count. -/
theorem permLoop_frame (env : WfEnv) (st : RunState) :
    (Approval.permLoop env st).2.fs = st.fs ∧
    countCommitted (Approval.permLoop env st).2.trace = countCommitted st.trace := by
  unfold Approval.permLoop
  cases h0 : env.adminOk st.adminCalls with
  | true => simp [addEv, countCommitted_append, countCommitted, isCommitMark]
  | false =>
    cases h1 : env.adminOk (st.adminCalls + 1) with
    | true => simp [addEv, h1, countCommitted_append, countCommitted, isCommitMark]
    | false =>
      cases h2 : env.adminOk (st.adminCalls + 1 + 1) with
      | true => simp [addEv, h1, h2, countCommitted_append, countCommitted, isCommitMark]
      | false => simp [addEv, h1, h2, countCommitted_append, countCommitted, isCommitMark]

/-- The catch-all handler of approval.ts always produces a failure result
that carries a message. -/
theorem approval_catchResult_shape (e : JsError) :
    (Approval.catchResult e).success = false ∧
    (Approval.catchResult e).error.isSome = true := by
  cases e with
  | firebase code msg =>
    unfold Approval.catchResult
    by_cases h1 : (code == "auth/email-already-in-use") = true
    · simp [h1]
    · by_cases h2 : (code == "auth/invalid-email") = true
      · simp [h1, h2]
      · by_cases h3 : (code == "permission-denied") = true
        · simp [h1, h2, h3]
        · simp [h1, h2, h3]
  | jsError msg => exact ⟨rfl, rfl⟩
  | referenceError n => exact ⟨rfl, rfl⟩

/-- The catch-all handler of validation.ts always produces a failure
result that carries a message. -/
theorem validation_catchResult_shape (e : JsError) :
    (Validation.catchResult e).success = false ∧
    (Validation.catchResult e).error.isSome = true := by
  cases e with
  | firebase code msg =>
    unfold Validation.catchResult
    by_cases h1 : (code == "auth/email-already-in-use") = true
    · simp [h1]
    · by_cases h2 : (code == "auth/invalid-email") = true
      · simp [h1, h2]
      · by_cases h3 : (code == "permission-denied") = true
        · simp [h1, h2, h3]
        · simp [h1, h2, h3]
  | jsError msg => exact ⟨rfl, rfl⟩
  | referenceError n => exact ⟨rfl, rfl⟩

/-- The retried commit as a whole: on success the batch lands atomically,
exactly once; on failure the store is untouched. -/
theorem commitPhase_spec (env : WfEnv) (batch : List WriteOp) (st : RunState) :
    ((Approval.commitPhase env batch st).1 = .ok () →
      (Approval.commitPhase env batch st).2.fs = applyBatch st.fs batch ∧
      countCommitted (Approval.commitPhase env batch st).2.trace
        = countCommitted st.trace + 1) ∧
    (∀ e, (Approval.commitPhase env batch st).1 = .error e →
      (Approval.commitPhase env batch st).2.fs = st.fs ∧
      countCommitted (Approval.commitPhase env batch st).2.trace
        = countCommitted st.trace) := by
  cases ho : env.isOnline with
  | true =>
    have hred : Approval.commitPhase env batch st
        = retryGo (Approval.commitOp env batch)
            { maxAttempts := 5, initialDelay := 1000, backoffMultiplier := 2,
              waitForNetwork := true } 1 5 st := by
      simp [Approval.commitPhase, retryRun, ho]
    rw [hred]
    obtain ⟨-, hok, herr⟩ := retryGo_commitOp_spec env batch
      { maxAttempts := 5, initialDelay := 1000, backoffMultiplier := 2,
        waitForNetwork := true } 5 1 st
    exact ⟨hok, herr⟩
  | false =>
    cases hw : env.networkReturns with
    | false =>
      have hred : Approval.commitPhase env batch st
          = (.error (.jsError "No network connection available"),
             addEv st (.waitNetworkEv false)) := by
        simp [Approval.commitPhase, retryRun, ho, hw]
      rw [hred]
      refine ⟨?_, ?_⟩
      · intro h; simp at h
      · intro e he
        exact ⟨rfl, by simp [addEv, countCommitted_append, countCommitted, isCommitMark]⟩
    | true =>
      have hred : Approval.commitPhase env batch st
          = retryGo (Approval.commitOp env batch)
              { maxAttempts := 5, initialDelay := 1000, backoffMultiplier := 2,
                waitForNetwork := true } 1 5 (addEv st (.waitNetworkEv true)) := by
        simp [Approval.commitPhase, retryRun, ho, hw]
      rw [hred]
      obtain ⟨-, hok, herr⟩ := retryGo_commitOp_spec env batch
        { maxAttempts := 5, initialDelay := 1000, backoffMultiplier := 2,
          waitForNetwork := true } 5 1 (addEv st (.waitNetworkEv true))
      have w1 : countCommitted (addEv st (.waitNetworkEv true)).trace
          = countCommitted st.trace := by
        simp [addEv, countCommitted_append, countCommitted, isCommitMark]
      have w2 : (addEv st (.waitNetworkEv true)).fs = st.fs := rfl
      refine ⟨?_, ?_⟩
      · intro h
        obtain ⟨hf, hc⟩ := hok h
        exact ⟨by rw [hf, w2], by omega⟩
      · intro e he
        obtain ⟨hf, hc⟩ := herr e he
        exact ⟨by rw [hf, w2], by omega⟩

/-- Shape of every outcome of approval.ts's body: a returned success has
committed exactly the full staged batch, atomically and exactly once; a
returned failure and a thrown error leave the document store untouched;
returned failures carry a message or existing-user details. -/
theorem approval_body_spec (env : WfEnv) (requestId reviewerId : String)
    (ud : UserData) (st : RunState) :
    (∀ r, (Approval.body env requestId reviewerId ud st).1 = .ok r →
      (r.success = true →
        ∃ uid email, r.userId = some uid ∧
          (Approval.body env requestId reviewerId ud st).2.fs
            = applyBatch st.fs (Approval.fullBatch env requestId reviewerId ud email uid) ∧
          countCommitted (Approval.body env requestId reviewerId ud st).2.trace
            = countCommitted st.trace + 1) ∧
      (r.success = false →
        (Approval.body env requestId reviewerId ud st).2.fs = st.fs ∧
        countCommitted (Approval.body env requestId reviewerId ud st).2.trace
          = countCommitted st.trace ∧
        (r.error.isSome = true ∨ r.existingUser.isSome = true))) ∧
    (∀ e, (Approval.body env requestId reviewerId ud st).1 = .error e →
      (Approval.body env requestId reviewerId ud st).2.fs = st.fs ∧
      countCommitted (Approval.body env requestId reviewerId ud st).2.trace
        = countCommitted st.trace) := by
  cases hon : env.isOnline with
  | false =>
    have hb : Approval.body env requestId reviewerId ud st
        = (.error (.jsError "No network connection available"), st) := by
      unfold Approval.body; simp [hon]
    rw [hb]
    exact ⟨fun r hr => by simp at hr, fun e he => ⟨rfl, rfl⟩⟩
  | true =>
    cases hcu : env.hasCurrentUser with
    | false =>
      have hb : Approval.body env requestId reviewerId ud st
          = (.error (.jsError "You must be signed in to perform this action"), st) := by
        unfold Approval.body; simp [hon, hcu]
      rw [hb]
      exact ⟨fun r hr => by simp at hr, fun e he => ⟨rfl, rfl⟩⟩
    | true =>
      have hperm := permLoop_frame env st
      rcases hpl : Approval.permLoop env st with ⟨hp, st1⟩
      rw [hpl] at hperm
      dsimp only at hperm
      obtain ⟨hfs1, hcc1⟩ := hperm
      cases hp with
      | false =>
        have hb : Approval.body env requestId reviewerId ud st
            = (.error (.jsError "You do not have permission to approve requests"), st1) := by
          unfold Approval.body; simp [hon, hcu, hpl]
        rw [hb]
        exact ⟨fun r hr => by simp at hr, fun e he => ⟨hfs1, hcc1⟩⟩
      | true =>
        cases hem : ud.email.map normalizeEmail with
        | none =>
          have hb : Approval.body env requestId reviewerId ud st
              = (.error (.jsError "Email address is required"), st1) := by
            unfold Approval.body; simp [hon, hcu, hpl, hem]
          rw [hb]
          exact ⟨fun r hr => by simp at hr, fun e he => ⟨hfs1, hcc1⟩⟩
        | some email =>
          by_cases hee : (email == "") = true
          · have hb : Approval.body env requestId reviewerId ud st
                = (.error (.jsError "Email address is required"), st1) := by
              unfold Approval.body; simp [hon, hcu, hpl, hem, hee]
            rw [hb]
            exact ⟨fun r hr => by simp at hr, fun e he => ⟨hfs1, hcc1⟩⟩
          · cases hgr : env.getRequestErr with
            | some e0 =>
              have hb : Approval.body env requestId reviewerId ud st
                  = (.error e0, st1) := by
                unfold Approval.body; simp [hon, hcu, hpl, hem, hee, hgr]
              rw [hb]
              exact ⟨fun r hr => by simp at hr, fun e he => ⟨hfs1, hcc1⟩⟩
            | none =>
              cases hreq : st1.fs.getRequest requestId with
              | none =>
                have hb : Approval.body env requestId reviewerId ud st
                    = (.error (.jsError "Authentication request not found"), st1) := by
                  unfold Approval.body; simp [hon, hcu, hpl, hem, hee, hgr, hreq]
                rw [hb]
                exact ⟨fun r hr => by simp at hr, fun e he => ⟨hfs1, hcc1⟩⟩
              | some reqDoc =>
                have hccs : countCommitted (addEv st1 (.statusCheck reqDoc.status)).trace
                    = countCommitted st1.trace := by
                  simp [addEv, countCommitted_append, countCommitted, isCommitMark]
                have hfss : (addEv st1 (.statusCheck reqDoc.status)).fs = st1.fs := rfl
                by_cases hst : (reqDoc.status == ReqStatus.approved
                    || reqDoc.status == ReqStatus.rejected) = true
                · have hb : Approval.body env requestId reviewerId ud st
                      = (.error (.firebase "failed-precondition"
                          "This request has already been processed"),
                         addEv st1 (.statusCheck reqDoc.status)) := by
                    unfold Approval.body; simp [hon, hcu, hpl, hem, hee, hgr, hreq, hst]
                  rw [hb]
                  refine ⟨fun r hr => by simp at hr, fun e he => ⟨?_, ?_⟩⟩
                  · rw [hfss, hfs1]
                  · rw [hccs, hcc1]
                · have hcpf := createPhase_frame env email (addEv st1 (.statusCheck reqDoc.status))
                  rcases hcp : Approval.createPhase env email (addEv st1 (.statusCheck reqDoc.status))
                    with ⟨out, st3⟩
                  rw [hcp] at hcpf
                  dsimp only at hcpf
                  obtain ⟨hfs3, htr3, -⟩ := hcpf
                  have hcc3 : countCommitted st3.trace = countCommitted st1.trace := by
                    rw [htr3]; exact hccs
                  have hfs3' : st3.fs = st1.fs := by rw [hfs3, hfss]
                  cases out with
                  | early r0 =>
                    have hshape := createPhase_early_shape env email
                      (addEv st1 (.statusCheck reqDoc.status)) r0 (by rw [hcp])
                    have hb : Approval.body env requestId reviewerId ud st
                        = (.ok r0, st3) := by
                      unfold Approval.body; simp [hon, hcu, hpl, hem, hee, hgr, hreq, hst, hcp]
                    rw [hb]
                    refine ⟨?_, fun e he => by simp at he⟩
                    intro r hr
                    have hrr : r0 = r := by simpa using hr
                    subst hrr
                    refine ⟨fun hs => absurd hs (by simp [hshape.1]), fun _ => ?_⟩
                    exact ⟨by rw [hfs3', hfs1], by rw [hcc3, hcc1], hshape.2⟩
                  | thrown e0 =>
                    have hb : Approval.body env requestId reviewerId ud st
                        = (.error e0, st3) := by
                      unfold Approval.body; simp [hon, hcu, hpl, hem, hee, hgr, hreq, hst, hcp]
                    rw [hb]
                    exact ⟨fun r hr => by simp at hr,
                      fun e he => ⟨by rw [hfs3', hfs1], by rw [hcc3, hcc1]⟩⟩
                  | uid uid =>
                    by_cases hu0 : (uid == "") = true
                    · have hb : Approval.body env requestId reviewerId ud st
                          = (.error (.jsError "Failed to get valid user ID"), st3) := by
                        unfold Approval.body
                        simp [hon, hcu, hpl, hem, hee, hgr, hreq, hst, hcp, hu0]
                      rw [hb]
                      exact ⟨fun r hr => by simp at hr,
                        fun e he => ⟨by rw [hfs3', hfs1], by rw [hcc3, hcc1]⟩⟩
                    · by_cases hadm : (ud.role == "admin") = true
                      · have hb : Approval.body env requestId reviewerId ud st
                            = (.error (.referenceError "getFunctions"), st3) := by
                          unfold Approval.body
                          simp [hon, hcu, hpl, hem, hee, hgr, hreq, hst, hcp, hu0, hadm]
                        rw [hb]
                        exact ⟨fun r hr => by simp at hr,
                          fun e he => ⟨by rw [hfs3', hfs1], by rw [hcc3, hcc1]⟩⟩
                      · have hcms := commitPhase_spec env
                          (Approval.fullBatch env requestId reviewerId ud email uid) st3
                        rcases hcm : Approval.commitPhase env
                            (Approval.fullBatch env requestId reviewerId ud email uid) st3
                          with ⟨res, st4⟩
                        rw [hcm] at hcms
                        dsimp only at hcms
                        obtain ⟨hcok, hcerr⟩ := hcms
                        cases res with
                        | ok a =>
                          obtain ⟨hf4, hc4⟩ := hcok rfl
                          have hb : Approval.body env requestId reviewerId ud st
                              = (.ok { success := true, userId := some uid }, st4) := by
                            unfold Approval.body
                            simp [hon, hcu, hpl, hem, hee, hgr, hreq, hst, hcp, hu0, hadm, hcm]
                          rw [hb]
                          refine ⟨?_, fun e he => by simp at he⟩
                          intro r hr
                          have hrr : ({ success := true, userId := some uid } : ApprovalResult)
                              = r := by simpa using hr
                          subst hrr
                          refine ⟨fun _ => ⟨uid, email, rfl, ?_, ?_⟩, fun hs => by simp at hs⟩
                          · rw [hf4, hfs3', hfs1]
                          · rw [hc4, hcc3, hcc1]
                        | error e0 =>
                          obtain ⟨hf4, hc4⟩ := hcerr e0 rfl
                          have hb : Approval.body env requestId reviewerId ud st
                              = (.error e0, st4) := by
                            unfold Approval.body
                            simp [hon, hcu, hpl, hem, hee, hgr, hreq, hst, hcp, hu0, hadm, hcm]
                          rw [hb]
                          refine ⟨fun r hr => by simp at hr, fun e he => ⟨?_, ?_⟩⟩
                          · rw [hf4, hfs3', hfs1]
                          · rw [hc4, hcc3, hcc1]

/-- C4: approval.ts commits the profile document(s) and the request
status flip in one all-or-nothing batch, exactly once per approved
request: a success has applied precisely the full staged batch (and
recorded exactly one commit), and any failure — account creation
included — leaves the document store, hence the AuthRequest status,
untouched. -/
theorem c4_single_atomic_commit (env : WfEnv) (requestId reviewerId : String)
    (ud : UserData) (st : RunState) :
    ((Approval.approveAuthRequest env requestId reviewerId ud st).1.success = true →
      ∃ uid email,
        (Approval.approveAuthRequest env requestId reviewerId ud st).1.userId = some uid ∧
        (Approval.approveAuthRequest env requestId reviewerId ud st).2.fs
          = applyBatch st.fs (Approval.fullBatch env requestId reviewerId ud email uid) ∧
        countCommitted (Approval.approveAuthRequest env requestId reviewerId ud st).2.trace
          = countCommitted st.trace + 1) ∧
    ((Approval.approveAuthRequest env requestId reviewerId ud st).1.success = false →
      (Approval.approveAuthRequest env requestId reviewerId ud st).2.fs = st.fs ∧
      countCommitted (Approval.approveAuthRequest env requestId reviewerId ud st).2.trace
        = countCommitted st.trace) := by
  obtain ⟨hok, herr⟩ := approval_body_spec env requestId reviewerId ud st
  unfold Approval.approveAuthRequest
  rcases hb : Approval.body env requestId reviewerId ud st with ⟨res, st'⟩
  rw [hb] at hok herr
  dsimp only at hok herr ⊢
  cases res with
  | ok r =>
    obtain ⟨h1, h2⟩ := hok r rfl
    constructor
    · intro hs
      exact h1 hs
    · intro hs
      obtain ⟨hf, hc, -⟩ := h2 hs
      exact ⟨hf, hc⟩
  | error e =>
    obtain ⟨hf, hc⟩ := herr e rfl
    have hcs := (approval_catchResult_shape e).1
    constructor
    · intro hs
      rw [hcs] at hs
      cases hs
    · intro _
      exact ⟨hf, hc⟩

/-- The catch around validation.ts's account creation: any result it
returns (rather than rethrows) is a failure carrying a message. -/
theorem validation_createCatch_shape (st : RunState) (email : String)
    (e : JsError) (r : ApprovalResult)
    (h : Validation.createCatch st email e = .ok r) :
    r.success = false ∧ r.error.isSome = true := by
  unfold Validation.createCatch at h
  dsimp only at h
  repeat' split at h
  all_goals cases h
  all_goals simp

/-- A result out of the first existence gate is a failure carrying a
message. -/
theorem firstGateResult_shape (env : WfEnv) (fs : Firestore) (auth : AuthState)
    (email : String) (r : ApprovalResult)
    (h : Validation.firstGateResult env fs auth email = some r) :
    r.error.isSome = true := by
  unfold Validation.firstGateResult at h
  dsimp only at h
  cases hge : Validation.getExistingUserError
      (Validation.checkExistingUser env fs auth email) with
  | some msg =>
    simp only [hge, Option.some.injEq] at h
    cases h
    simp
  | none =>
    simp only [hge] at h
    cases h

/-- A result out of the pre-mutation existence gate is a failure carrying
a message. -/
theorem finalGateResult_shape (finalCheck : Validation.UserExistenceCheck)
    (forceContinue : Bool) (r : ApprovalResult)
    (h : Validation.finalGateResult finalCheck forceContinue = some r) :
    r.error.isSome = true := by
  unfold Validation.finalGateResult at h
  dsimp only at h
  cases h1 : finalCheck.found with
  | false => simp [h1] at h
  | true =>
    cases h2 : (finalCheck.details.auth && !finalCheck.details.users
        && !finalCheck.details.sales && forceContinue) with
    | true => simp [h1, h2] at h
    | false =>
      cases h3 : forceContinue with
      | true => simp [h1, h2, h3] at h
      | false =>
        rw [h3] at h
        simp only [h1, if_true, Bool.and_false, Bool.not_false] at h
        rw [if_neg (by simp : ¬ (false = true))] at h
        simp only [Option.some.injEq] at h
        cases h
        simp

/-- Every non-success result validation.ts's body returns carries an
error message. -/
theorem validation_body_result_shape (env : WfEnv) (requestId reviewerId : String)
    (ud : UserData) (st : RunState) :
    ∀ r st', Validation.body env requestId reviewerId ud st = (.ok r, st') →
      r.success = false → r.error.isSome = true := by
  intro r st' hr hs
  unfold Validation.body at hr
  revert hr
  cases hadm : env.adminOk st.adminCalls
  case false =>
    intro hr
    simp at hr
  case true =>
    intro hr
    simp only [Bool.not_true, Bool.false_eq_true, if_false] at hr
    repeat' split at hr
    all_goals try cases hr
    all_goals
      first
      | (simp_all; done)
      | exact (validation_createCatch_shape _ _ _ r hr.1).2
      | (simp only [Prod.mk.injEq] at hr
         exact (validation_createCatch_shape _ _ _ r hr.1).2)
      | (rename_i hgate
         exact finalGateResult_shape _ _ r hgate)
      | (rename_i hgate
         split at hgate
         · exact firstGateResult_shape _ _ _ _ r hgate
         · cases hgate)

/- ------------------------------------------------------------------
C10: the public interface never rejects.
------------------------------------------------------------------ -/

/-- C10 counterexample: in approval.ts, when the identity provider
reports the email in use but no profile exists, the resolved result has
success false and existing-user details but NO error message — refuting
that every handled failure carries a human-readable error message. -/
theorem c10_counterexample_missing_message :
    (Approval.approveAuthRequest {} "r1" "rev" udTm stAuthOnly).1.success = false ∧
    (Approval.approveAuthRequest {} "r1" "rev" udTm stAuthOnly).1.error = none ∧
    (Approval.approveAuthRequest {} "r1" "rev" udTm stAuthOnly).1.existingUser
      = some { auth := true, users := false, sales := false } := by
  refine ⟨?_, ?_, ?_⟩ <;> decide

/-- C10 amended: both variants always resolve to a structured
ApprovalResult (the model's catch handlers map every thrown error to a
failure result with a message); every non-success result carries an error
message, except approval.ts's needs-confirmation result, which carries
the existing-user details instead. -/
theorem c10_never_rejects_structured (env : WfEnv) (requestId reviewerId : String)
    (ud : UserData) (st : RunState) :
    ((Approval.approveAuthRequest env requestId reviewerId ud st).1.success = false →
      ((Approval.approveAuthRequest env requestId reviewerId ud st).1.error.isSome = true ∨
       (Approval.approveAuthRequest env requestId reviewerId ud st).1.existingUser.isSome = true)) ∧
    ((Validation.approveAuthRequest env requestId reviewerId ud st).1.success = false →
      (Validation.approveAuthRequest env requestId reviewerId ud st).1.error.isSome = true) ∧
    (∀ e : JsError,
      (Approval.catchResult e).success = false ∧
      (Approval.catchResult e).error.isSome = true ∧
      (Validation.catchResult e).success = false ∧
      (Validation.catchResult e).error.isSome = true) := by
  refine ⟨?_, ?_, ?_⟩
  · obtain ⟨hok, herr⟩ := approval_body_spec env requestId reviewerId ud st
    unfold Approval.approveAuthRequest
    rcases hb : Approval.body env requestId reviewerId ud st with ⟨res, st'⟩
    rw [hb] at hok herr
    dsimp only at hok herr ⊢
    cases res with
    | ok r =>
      intro hs
      obtain ⟨-, -, hshape⟩ := (hok r rfl).2 hs
      exact hshape
    | error e =>
      intro _
      exact Or.inl (approval_catchResult_shape e).2
  · unfold Validation.approveAuthRequest
    rcases hb : Validation.body env requestId reviewerId ud st with ⟨res, st'⟩
    cases res with
    | ok r =>
      intro hs
      exact validation_body_result_shape env requestId reviewerId ud st r st' hb hs
    | error e =>
      intro _
      exact (validation_catchResult_shape e).2
  · intro e
    exact ⟨(approval_catchResult_shape e).1, (approval_catchResult_shape e).2,
      (validation_catchResult_shape e).1, (validation_catchResult_shape e).2⟩

/- ------------------------------------------------------------------
C1: the already-processed guard and the single status check.
------------------------------------------------------------------ -/

/-- C1 counterexample: a complete successful approval run performs the
non-pending status check exactly once (when the request is loaded), in
both variants — refuting that the status check is performed a second time
immediately before the batched commit (the pre-commit re-checks are of
admin permission and of email existence, not of the request status). -/
theorem c1_counterexample_one_status_check :
    (Approval.approveAuthRequest {} "r1" "rev" udTm stPend).1.success = true ∧
    countStatus (Approval.approveAuthRequest {} "r1" "rev" udTm stPend).2.trace = 1 ∧
    (Validation.approveAuthRequest {} "r1" "rev" udTmForce stPend).1.success = true ∧
    countStatus (Validation.approveAuthRequest {} "r1" "rev" udTmForce stPend).2.trace = 1 := by
  refine ⟨?_, ?_, ?_, ?_⟩ <;> decide

/-- C1 amended: when the stored request is already approved or rejected
(and the run reaches the load step: online, authenticated, admin verified,
email present), both variants fail with the AlreadyProcessed message and
write nothing; the status check happens exactly once, on load. -/
theorem c1_amended_already_processed (env : WfEnv)
    (requestId reviewerId email : String) (ud : UserData) (st : RunState)
    (req : AuthRequestDoc)
    (hon : env.isOnline = true) (hcu : env.hasCurrentUser = true)
    (hadm : env.adminOk st.adminCalls = true)
    (hem : ud.email = some email) (hnorm : normalizeEmail email = email)
    (hne : ¬ email = "") (hgr : env.getRequestErr = none)
    (hreq : st.fs.getRequest requestId = some req)
    (hst : req.status = ReqStatus.approved ∨ req.status = ReqStatus.rejected)
    (hfc : ud.forceContinue = true) :
    (Approval.approveAuthRequest env requestId reviewerId ud st).1
      = { success := false, error := some "This request has already been processed" } ∧
    (Approval.approveAuthRequest env requestId reviewerId ud st).2.fs = st.fs ∧
    countStatus (Approval.approveAuthRequest env requestId reviewerId ud st).2.trace
      = countStatus st.trace + 1 ∧
    (Validation.approveAuthRequest env requestId reviewerId ud st).1
      = { success := false, error := some "This request has already been processed" } ∧
    (Validation.approveAuthRequest env requestId reviewerId ud st).2.fs = st.fs ∧
    countStatus (Validation.approveAuthRequest env requestId reviewerId ud st).2.trace
      = countStatus st.trace + 1 := by
  have hA : Approval.approveAuthRequest env requestId reviewerId ud st
      = (Approval.catchResult
          (.firebase "failed-precondition" "This request has already been processed"),
         addEv (addEv { st with adminCalls := st.adminCalls + 1 } (.adminCheck true))
           (.statusCheck req.status)) := by
    unfold Approval.approveAuthRequest Approval.body Approval.permLoop
    rcases hst with h | h <;>
      simp [hon, hcu, hadm, hem, hnorm, hne, hgr, hreq, h, addEv]
  have hV : Validation.approveAuthRequest env requestId reviewerId ud st
      = (Validation.catchResult (.jsError "This request has already been processed"),
         addEv (addEv { st with adminCalls := st.adminCalls + 1 } (.adminCheck true))
           (.statusCheck req.status)) := by
    unfold Validation.approveAuthRequest Validation.body
    rcases hst with h | h <;>
      simp [hcu, hadm, hem, hnorm, hne, hgr, hreq, h, hfc, addEv]
  refine ⟨?_, ?_, ?_, ?_, ?_, ?_⟩
  · rw [hA]; simp [Approval.catchResult]
  · rw [hA]; simp [addEv]
  · rw [hA]
    simp [addEv, countStatus_append, countStatus, isStatusCheckEv]
  · rw [hV]; simp [Validation.catchResult]
  · rw [hV]; simp [addEv]
  · rw [hV]
    simp [addEv, countStatus_append, countStatus, isStatusCheckEv]

/-- C1 witness: the amended statement at a concrete already-approved
request. -/
theorem c1_amended_witness :
    (Approval.approveAuthRequest {} "r1" "rev" udTmForce stApprovedReq).1
      = { success := false, error := some "This request has already been processed" } ∧
    (Validation.approveAuthRequest {} "r1" "rev" udTmForce stApprovedReq).1
      = { success := false, error := some "This request has already been processed" } := by
  have h := c1_amended_already_processed {} "r1" "rev" "a@b.com" udTmForce
    stApprovedReq reqApproved rfl rfl rfl rfl (by decide) (by decide) rfl
    (by decide) (Or.inl rfl) rfl
  exact ⟨h.1, h.2.2.2.1⟩

/- ------------------------------------------------------------------
C2: orphaned identity-provider account, no profiles.
------------------------------------------------------------------ -/

/-- C2 counterexample: with the provider account present, no profiles and
forceContinue SET, the workflow does not reuse the existing uid — no
profile documents are created; account creation fails (no uid is
resolvable from the profile stores) and the call returns a failure. -/
theorem c2_counterexample_no_uid_reuse :
    (Validation.approveAuthRequest {} "r1" "rev" udTmForce stAuthOnly).1.success = false ∧
    (Validation.approveAuthRequest {} "r1" "rev" udTmForce stAuthOnly).1.error
      = some "Failed to create or find user account" ∧
    (Validation.approveAuthRequest {} "r1" "rev" udTmForce stAuthOnly).2.fs
      = stAuthOnly.fs := by
  refine ⟨?_, ?_, ?_⟩ <;> decide

/-- C2 amended: when the provider account exists for the normalized email
and neither profile store has a record, an unforced call returns the
needs-confirmation result (existingUser details, zero writes) as claimed;
a forced call on a pending request proceeds past the existence checks but
fails account creation with `Failed to create or find user account`
(no uid is resolvable from the profile stores) and still writes nothing. -/
theorem c2_amended_orphaned_account (env : WfEnv)
    (requestId reviewerId email uid : String) (ud : UserData) (st : RunState)
    (hcu : env.hasCurrentUser = true)
    (hadm : env.adminOk st.adminCalls = true)
    (hem : ud.email = some email) (hnorm : normalizeEmail email = email)
    (hne : ¬ email = "") (hgr : env.getRequestErr = none)
    (hcr : env.createUserErr = none) (hfm : env.fetchMethodsErr = none)
    (huid : st.auth.uidOf email = some uid)
    (husers : st.fs.usersByEmail email = [])
    (hsales : st.fs.salesByEmail email = []) :
    (ud.forceContinue = false →
      (Validation.approveAuthRequest env requestId reviewerId ud st).1
        = { success := false,
            existingUser := some { auth := true, users := false, sales := false },
            error := some "Authentication account exists. Click Continue to create required profiles." } ∧
      (Validation.approveAuthRequest env requestId reviewerId ud st).2.fs = st.fs) ∧
    (ud.forceContinue = true →
      ∀ req, st.fs.getRequest requestId = some req → req.status = ReqStatus.pending →
      (Validation.approveAuthRequest env requestId reviewerId ud st).1
        = { success := false, error := some "Failed to create or find user account" } ∧
      (Validation.approveAuthRequest env requestId reviewerId ud st).2.fs = st.fs) := by
  constructor
  · intro hfc
    have hV : Validation.approveAuthRequest env requestId reviewerId ud st
        = ({ success := false,
             existingUser := some { auth := true, users := false, sales := false },
             error := some "Authentication account exists. Click Continue to create required profiles." },
           addEv { st with adminCalls := st.adminCalls + 1 } (.adminCheck true)) := by
      unfold Validation.approveAuthRequest Validation.body Validation.firstGateResult
      simp [hcu, hadm, hem, hnorm, hne, hfc, addEv, Validation.checkExistingUser,
        Validation.checkAuthAccount, Validation.checkUserRecords, AuthState.signInMethods,
        huid, husers, hsales, hfm, Validation.getExistingUserError]
    rw [hV]
    exact ⟨rfl, rfl⟩
  · intro hfc req hreq hpend
    have hV : Validation.approveAuthRequest env requestId reviewerId ud st
        = (Validation.catchResult (.jsError "Failed to create or find user account"),
           addEv (addEv { st with adminCalls := st.adminCalls + 1 } (.adminCheck true))
             (.statusCheck req.status)) := by
      unfold Validation.approveAuthRequest Validation.body Validation.finalGateResult
        Validation.createUserAccount Validation.createCatch
      simp [hcu, hadm, hem, hnorm, hne, hgr, hreq, hpend, hfc, addEv,
        Validation.checkExistingUser, Validation.checkAuthAccount,
        Validation.checkUserRecords, AuthState.signInMethods,
        huid, husers, hsales, hfm, hcr, JsError.hasCode, JsError.isFirebase]
    rw [hV]
    exact ⟨rfl, rfl⟩

/-- C2 witness: the amended statement at the concrete orphaned-account
store, in both the unforced and the forced variant. -/
theorem c2_amended_witness :
    (Validation.approveAuthRequest {} "r1" "rev" udTm stAuthOnly).1
      = { success := false,
          existingUser := some { auth := true, users := false, sales := false },
          error := some "Authentication account exists. Click Continue to create required profiles." } ∧
    (Validation.approveAuthRequest {} "r1" "rev" udTmForce stAuthOnly).1
      = { success := false, error := some "Failed to create or find user account" } := by
  have h1 := c2_amended_orphaned_account {} "r1" "rev" "a@b.com" "u77" udTm
    stAuthOnly rfl rfl rfl (by decide) (by decide) rfl rfl rfl (by decide)
    (by decide) (by decide)
  have h2 := c2_amended_orphaned_account {} "r1" "rev" "a@b.com" "u77" udTmForce
    stAuthOnly rfl rfl rfl (by decide) (by decide) rfl rfl rfl (by decide)
    (by decide) (by decide)
  exact ⟨(h1.1 rfl).1, (h2.2 rfl reqPending (by decide) rfl).1⟩

/- ------------------------------------------------------------------
C3: fully provisioned account.
------------------------------------------------------------------ -/

/-- C3 counterexample: with both profile stores populated for the email,
a validation.ts call with forceContinue SET succeeds and writes — the
request status flips to approved — refuting that provisioning always
fails with Conflict and never writes in this state. -/
theorem c3_counterexample_forced_success :
    stBoth.fs.usersByEmail "a@b.com" ≠ [] ∧
    stBoth.fs.salesByEmail "a@b.com" ≠ [] ∧
    (Validation.approveAuthRequest {} "r1" "rev" udTmForce stBoth).1.success = true ∧
    ((Validation.approveAuthRequest {} "r1" "rev" udTmForce stBoth).2.fs.getRequest "r1").map
      (fun d => d.status) = some ReqStatus.approved := by
  refine ⟨?_, ?_, ?_, ?_⟩ <;> decide

/-- C3 amended: when both profile stores contain a record for the
normalized email AND forceContinue is unset, the validation.ts call
always fails with the Conflict message and writes nothing; the
approval.ts variant (which has no forceContinue), when the provider
account also exists, fails with its active-account message and writes
nothing.  With forceContinue set, the counterexample shows the guarantee
does not hold. -/
theorem c3_amended_conflict_unforced (env : WfEnv)
    (requestId reviewerId email uid : String) (ud : UserData) (st : RunState)
    (req : AuthRequestDoc)
    (hon : env.isOnline = true) (hcu : env.hasCurrentUser = true)
    (hadm : env.adminOk st.adminCalls = true)
    (hem : ud.email = some email) (hnorm : normalizeEmail email = email)
    (hne : ¬ email = "") (hgr : env.getRequestErr = none)
    (hcr : env.createUserErr = none) (hq : env.queryUsersErr = none)
    (huid : st.auth.uidOf email = some uid)
    (husers : (st.fs.usersByEmail email).isEmpty = false)
    (hsales : (st.fs.salesByEmail email).isEmpty = false)
    (hreq : st.fs.getRequest requestId = some req)
    (hpend : req.status = ReqStatus.pending)
    (hfc : ud.forceContinue = false) :
    (Validation.approveAuthRequest env requestId reviewerId ud st).1.success = false ∧
    (Validation.approveAuthRequest env requestId reviewerId ud st).1.error
      = some "This account already exists. Please check User Management for account status." ∧
    (Validation.approveAuthRequest env requestId reviewerId ud st).2.fs = st.fs ∧
    (Approval.approveAuthRequest env requestId reviewerId ud st).1
      = { success := false, error := some "This email already has an active account" } ∧
    (Approval.approveAuthRequest env requestId reviewerId ud st).2.fs = st.fs := by
  have hVgoal : (Validation.approveAuthRequest env requestId reviewerId ud st).1.success = false ∧
      (Validation.approveAuthRequest env requestId reviewerId ud st).1.error
        = some "This account already exists. Please check User Management for account status." ∧
      (Validation.approveAuthRequest env requestId reviewerId ud st).2.fs = st.fs := by
    unfold Validation.approveAuthRequest Validation.body Validation.firstGateResult
    refine ⟨?_, ?_, ?_⟩ <;>
      simp [hcu, hadm, hem, hnorm, hne, hfc, addEv, Validation.checkExistingUser,
        Validation.checkAuthAccount, Validation.checkUserRecords,
        AuthState.signInMethods, huid, husers, hsales,
        Validation.getExistingUserError]
  have hA : Approval.approveAuthRequest env requestId reviewerId ud st
      = ({ success := false, error := some "This email already has an active account" },
         addEv (addEv { st with adminCalls := st.adminCalls + 1 } (.adminCheck true))
           (.statusCheck req.status)) := by
    unfold Approval.approveAuthRequest Approval.body Approval.permLoop
      Approval.createPhase Approval.handleCreateErr
    simp [hon, hcu, hadm, hem, hnorm, hne, hgr, hreq, hpend, hcr, hq, huid,
      husers, addEv, JsError.hasCode]
  refine ⟨hVgoal.1, hVgoal.2.1, hVgoal.2.2, ?_, ?_⟩
  · rw [hA]
  · rw [hA]; simp [addEv]

/-- C3 witness: the amended statement at the concrete fully provisioned
store with forceContinue unset. -/
theorem c3_amended_witness :
    (Validation.approveAuthRequest {} "r1" "rev" udTm stBoth).1.error
      = some "This account already exists. Please check User Management for account status." ∧
    (Approval.approveAuthRequest {} "r1" "rev" udTm stBoth).1
      = { success := false, error := some "This email already has an active account" } := by
  have h := c3_amended_conflict_unforced {} "r1" "rev" "a@b.com" "u77" udTm
    stBoth reqPending rfl rfl rfl rfl (by decide) (by decide) rfl rfl rfl
    (by decide) (by decide) (by decide) (by decide) rfl rfl
  exact ⟨h.2.1, h.2.2.2.1⟩
